import Mathlib

/-!
# Verification of the abydos edit-distance core

A shallow embedding of `abydos/distance/_levenshtein.py` and
`abydos/distance/_phonetic_edit_distance.py`.

Sequences are modelled as `List α` for an arbitrary symbol type `α` with
decidable equality (the Python code works on `str`; only equality of symbols
is ever used, so concrete instances below encode characters as distinct
naturals).  The numpy matrices of the Python code are `dtype=np_int` for
`Levenshtein` and `DamerauLevenshtein` (every stored cell is truncated toward
zero, as numpy does when assigning a float into an int array) and
`dtype=np_float` for `PhoneticEditDistance` (no truncation).  Rational numbers
stand in for Python floats; Python's `ValueError` is an `Except.error`; a
Python `IndexError` crash is modelled by `Option` with `none` for the crash.
Rational division by zero is `0` in Lean, where Python would raise
`ZeroDivisionError`; the normalizers can only be zero for degenerate cost
models (zero insert/delete costs) outside every claim considered here.
-/

set_option linter.unusedSectionVars false

namespace Abydos

/-- The cost 4-tuple `(ins_cost, del_cost, sub_cost, trans_cost)` unpacked at
the top of each `dist_abs`. -/
structure Cost where
  ins : ℚ
  del : ℚ
  sub : ℚ
  trans : ℚ

/-- The `mode` argument of `Levenshtein.dist_abs`: the string `'lev'` or
`'osa'` in the source. -/
inductive Mode
  | lev
  | osa
deriving DecidableEq

/-- The default cost model `(1, 1, 1, 1)`. -/
def unitCost : Cost := ⟨1, 1, 1, 1⟩

@[simp] theorem modeLevNeOsa : Mode.lev ≠ Mode.osa := by
  intro h
  exact Mode.noConfusion h

@[simp] theorem modeOsaNeLev : Mode.osa ≠ Mode.lev := by
  intro h
  exact Mode.noConfusion h

/-- Truncation toward zero, as performed by numpy when a Python float is
stored into a `dtype=np_int` matrix cell. -/
def trunc (q : ℚ) : ℤ := Int.tdiv q.num (q.den : ℤ)

@[simp] theorem trunc_ofNat (n : ℕ) : trunc (no_index (OfNat.ofNat n)) = OfNat.ofNat n := by
  simp [trunc, Int.tdiv_one]

@[simp] theorem trunc_zero : trunc 0 = 0 := by
  simp [trunc, Int.tdiv_one]

@[simp] theorem trunc_one : trunc 1 = 1 := by
  simp [trunc, Int.tdiv_one]

@[simp] theorem trunc_intCast (z : ℤ) : trunc (z : ℚ) = z := by
  simp [trunc, Int.tdiv_one]

theorem trunc_eq_floor {q : ℚ} (h : 0 ≤ q) : trunc q = ⌊q⌋ := by
  rw [trunc, Int.tdiv_eq_ediv (Rat.num_nonneg.mpr h) (by positivity), Rat.floor_def]

theorem trunc_nonneg {q : ℚ} (h : 0 ≤ q) : 0 ≤ trunc q := by
  rw [trunc_eq_floor h]
  exact Int.floor_nonneg.mpr h

theorem trunc_le_self {q : ℚ} (h : 0 ≤ q) : (trunc q : ℚ) ≤ q := by
  rw [trunc_eq_floor h]
  exact Int.floor_le q

variable {α : Type} [DecidableEq α] [Inhabited α]

/-- Symbol access `l[i]` of the Python source.  All in-range accesses of the
embedded code go through this; the default value is never reached on the
index ranges the algorithms use. -/
def sym (l : List α) (i : ℕ) : α := l.getD i default

/-- Cell `(i, j)` of the `(len(src)+1) × (len(tar)+1)` Wagner-Fischer matrix
`d_mat` of `Levenshtein.dist_abs` (dtype `np_int`, hence `trunc` at every
store).  Row 0 and column 0 are seeded with cumulative delete/insert costs;
an interior cell is the minimum of the insert, delete and substitute
candidates, re-minimised with the transposition candidate in `osa` mode when
`i+1 > 1`, `j+1 > 1`, `src[i] == tar[j-1]` and `src[i-1] == tar[j]` (the
`osa` update reads the already truncated stored cell back). -/
def levCell (c : Cost) (mode : Mode) (src tar : List α) : ℕ → ℕ → ℤ
  | i, 0 => trunc ((i : ℚ) * c.del)
  | 0, j+1 => trunc (((j : ℚ) + 1) * c.ins)
  | i+1, j+1 =>
    let base : ℚ :=
      min (min ((levCell c mode src tar (i+1) j : ℚ) + c.ins)
               ((levCell c mode src tar i (j+1) : ℚ) + c.del))
          ((levCell c mode src tar i j : ℚ)
            + (if sym src i ≠ sym tar j then c.sub else 0))
    let stored : ℤ := trunc base
    if mode = Mode.osa ∧ 1 ≤ i ∧ 1 ≤ j ∧ sym src i = sym tar (j-1) ∧ sym src (i-1) = sym tar j then
      trunc (min (stored : ℚ) ((levCell c mode src tar (i-1) (j-1) : ℚ) + c.trans))
    else
      stored
termination_by i j => i + j
decreasing_by all_goals omega

theorem levCell_zero_right (c : Cost) (m : Mode) (s t : List α) (i : ℕ) :
    levCell c m s t i 0 = trunc ((i : ℚ) * c.del) := by
  cases i <;> simp only [levCell]

theorem levCell_zero_left (c : Cost) (m : Mode) (s t : List α) (j : ℕ) :
    levCell c m s t 0 (j+1) = trunc (((j : ℚ) + 1) * c.ins) := by
  simp only [levCell]

theorem levCell_succ_succ (c : Cost) (m : Mode) (s t : List α) (i j : ℕ) :
    levCell c m s t (i+1) (j+1) =
      (if m = Mode.osa ∧ 1 ≤ i ∧ 1 ≤ j ∧ sym s i = sym t (j-1) ∧ sym s (i-1) = sym t j then
        trunc (min ((trunc (min (min ((levCell c m s t (i+1) j : ℚ) + c.ins)
                                     ((levCell c m s t i (j+1) : ℚ) + c.del))
                                ((levCell c m s t i j : ℚ)
                                  + (if sym s i ≠ sym t j then c.sub else 0))) : ℚ))
                   ((levCell c m s t (i-1) (j-1) : ℚ) + c.trans))
      else
        trunc (min (min ((levCell c m s t (i+1) j : ℚ) + c.ins)
                        ((levCell c m s t i (j+1) : ℚ) + c.del))
                   ((levCell c m s t i j : ℚ)
                     + (if sym s i ≠ sym t j then c.sub else 0)))) := by
  simp only [levCell]

/-- `Levenshtein.dist_abs`: fast paths for equal, empty-source and
empty-target inputs, otherwise the terminal matrix cell. -/
def Levenshtein.dist_abs (c : Cost) (mode : Mode) (src tar : List α) : ℚ :=
  if src = tar then 0
  else if src = [] then (tar.length : ℚ) * c.ins
  else if tar = [] then (src.length : ℚ) * c.del
  else (levCell c mode src tar src.length tar.length : ℚ)

/-- `Levenshtein.dist`: the raw distance divided by the greater of
`len(src)*del_cost` and `len(tar)*ins_cost`, with the `src == tar` guard
returning `0` before any division. -/
def Levenshtein.dist (c : Cost) (mode : Mode) (src tar : List α) : ℚ :=
  if src = tar then 0
  else Levenshtein.dist_abs c mode src tar /
    max ((src.length : ℚ) * c.del) ((tar.length : ℚ) * c.ins)

/-- `sys.maxsize` on a 64-bit platform, the sentinel used for an unavailable
swap candidate in `DamerauLevenshtein.dist_abs`. -/
def pyMaxsize : ℤ := 2 ^ 63 - 1

/-- The state of the source's bookkeeping maps when the interior loops of
`DamerauLevenshtein.dist_abs` read them.  `lastIdxUnder l a bound` is the
largest `k < bound` with `l[k] == a` (and `none` when there is no such `k`):
for `src_index_by_character` the dictionary holds, while row `i` is being
processed, the most recent index of every character of `src[0..i-1]` (seeded
with `{src[0]: 0}` and extended with `src[i] -> i` after each row), and
`max_src_letter_match_index` holds, at column `j` of row `i`, the largest
`j' < j` with `src[i] == tar[j']` (seeded from column 0, updated on match
before the next column). -/
def lastIdxUnder (l : List α) (a : α) : ℕ → Option ℕ
  | 0 => none
  | b+1 => if sym l b = a then some b else lastIdxUnder l a b

theorem lastIdxUnder_lt {l : List α} {a : α} :
    ∀ {b k : ℕ}, lastIdxUnder l a b = some k → k < b := by
  intro b
  induction b with
  | zero => intro k h; simp [lastIdxUnder] at h
  | succ n ih =>
    intro k h
    rw [lastIdxUnder] at h
    by_cases hc : sym l n = a
    · rw [if_pos hc] at h
      injection h with h
      omega
    · rw [if_neg hc] at h
      exact Nat.lt_succ_of_lt (ih h)

/-- Cell `(i, j)` of the `len(src) × len(tar)` matrix of
`DamerauLevenshtein.dist_abs` (Kevin Stern's algorithm; dtype `np_int`, so
every stored cell is truncated).  Cell `(i, j)` holds the distance between
the prefixes `src[0..i]` and `tar[0..j]` (both prefixes inclusive).  The
swap candidate at an interior cell uses the last index of `tar[j]` in
`src[0..i-1]` and the last index of `src[i]` in `tar[0..j-1]`, charging the
cell before the swapped pair plus the skipped deletes/inserts plus one
transposition; it is `sys.maxsize` when either index does not exist.  The
source reads the pre-swap cell at `(max(0, i_swap-1), max(0, j_swap-1))`,
which truncated subtraction renders as `(iswap-1, jswap-1)`; the extra `min _
i` / `min _ j` clamps below never bind, because `lastIdxUnder _ _ (i+1)`
returns indices `≤ i` (see `lastIdxUnder_lt`), and exist only so that the
recursion is visibly well-founded. -/
def dlCell (c : Cost) (src tar : List α) : ℕ → ℕ → ℤ
  | 0, 0 =>
    if sym src 0 ≠ sym tar 0 then trunc (min c.sub (c.ins + c.del)) else 0
  | i+1, 0 =>
    trunc (min (min ((dlCell c src tar i 0 : ℚ) + c.del)
                    (((i : ℚ) + 2) * c.del + c.ins))
               (((i : ℚ) + 1) * c.del
                 + (if sym src (i+1) = sym tar 0 then 0 else c.sub)))
  | 0, j+1 =>
    trunc (min (min (((j : ℚ) + 2) * c.ins + c.del)
                    ((dlCell c src tar 0 j : ℚ) + c.ins))
               (((j : ℚ) + 1) * c.ins
                 + (if sym src 0 = sym tar (j+1) then 0 else c.sub)))
  | i+1, j+1 =>
    let delD : ℚ := (dlCell c src tar i (j+1) : ℚ) + c.del
    let insD : ℚ := (dlCell c src tar (i+1) j : ℚ) + c.ins
    let matchD : ℚ := (dlCell c src tar i j : ℚ)
      + (if sym src (i+1) ≠ sym tar (j+1) then c.sub else 0)
    let swapD : ℚ :=
      match lastIdxUnder src (sym tar (j+1)) (i+1),
            lastIdxUnder tar (sym src (i+1)) (j+1) with
      | some iswap, some jswap =>
        (if iswap = 0 ∧ jswap = 0 then 0
         else (dlCell c src tar (min (iswap - 1) i) (min (jswap - 1) j) : ℚ))
          + ((i + 1 - iswap - 1 : ℕ) : ℚ) * c.del
          + ((j + 1 - jswap - 1 : ℕ) : ℚ) * c.ins + c.trans
      | _, _ => (pyMaxsize : ℚ)
    trunc (min (min (min delD insD) matchD) swapD)
termination_by i j => i + j
decreasing_by all_goals omega

/-- The error message of the `ValueError` raised by
`DamerauLevenshtein.dist_abs` when `2 * trans_cost < ins_cost + del_cost`. -/
def dlCostError : String :=
  "Unsupported cost assignment; the cost of two transpositions must not be less than the cost of an insert plus a delete."

/-- `DamerauLevenshtein.dist_abs`: the equal / empty fast paths come first,
then the cost-model validation (a `ValueError` when
`2 * trans_cost < ins_cost + del_cost`), then the matrix, whose terminal cell
`(len(src)-1, len(tar)-1)` is returned. -/
def DamerauLevenshtein.dist_abs (c : Cost) (src tar : List α) : Except String ℚ :=
  if src = tar then .ok 0
  else if src = [] then .ok ((tar.length : ℚ) * c.ins)
  else if tar = [] then .ok ((src.length : ℚ) * c.del)
  else if 2 * c.trans < c.ins + c.del then .error dlCostError
  else .ok (dlCell c src tar (src.length - 1) (tar.length - 1) : ℚ)

/-- `DamerauLevenshtein.dist`: `0.0` for equal inputs, otherwise the raw
distance (with any `ValueError` propagating) divided by the greater of
`len(src)*del_cost` and `len(tar)*ins_cost`. -/
def DamerauLevenshtein.dist (c : Cost) (src tar : List α) : Except String ℚ :=
  if src = tar then .ok 0
  else (DamerauLevenshtein.dist_abs c src tar).map
    (fun d => d / max ((src.length : ℚ) * c.del) ((tar.length : ℚ) * c.ins))

/-- `Indel.dist_abs`: Levenshtein in `'lev'` mode with costs
`(1, 1, 9999, 9999)`. -/
def Indel.dist_abs (src tar : List α) : ℚ :=
  Levenshtein.dist_abs ⟨1, 1, 9999, 9999⟩ Mode.lev src tar

/-- `Indel.dist`: `0.0` for equal inputs, otherwise the raw indel distance
divided by `len(src) + len(tar)`. -/
def Indel.dist (src tar : List α) : ℚ :=
  if src = tar then 0
  else Indel.dist_abs src tar / ((src.length : ℚ) + (tar.length : ℚ))

theorem dlCell_zero_zero (c : Cost) (s t : List α) :
    dlCell c s t 0 0 =
      (if sym s 0 ≠ sym t 0 then trunc (min c.sub (c.ins + c.del)) else 0) := by
  simp only [dlCell]

theorem dlCell_succ_zero (c : Cost) (s t : List α) (i : ℕ) :
    dlCell c s t (i+1) 0 =
      trunc (min (min ((dlCell c s t i 0 : ℚ) + c.del)
                      (((i : ℚ) + 2) * c.del + c.ins))
                 (((i : ℚ) + 1) * c.del
                   + (if sym s (i+1) = sym t 0 then 0 else c.sub))) := by
  simp only [dlCell]

theorem dlCell_zero_succ (c : Cost) (s t : List α) (j : ℕ) :
    dlCell c s t 0 (j+1) =
      trunc (min (min (((j : ℚ) + 2) * c.ins + c.del)
                      ((dlCell c s t 0 j : ℚ) + c.ins))
                 (((j : ℚ) + 1) * c.ins
                   + (if sym s 0 = sym t (j+1) then 0 else c.sub))) := by
  simp only [dlCell]

theorem dlCell_succ_succ (c : Cost) (s t : List α) (i j : ℕ) :
    dlCell c s t (i+1) (j+1) =
      trunc (min (min (min ((dlCell c s t i (j+1) : ℚ) + c.del)
                           ((dlCell c s t (i+1) j : ℚ) + c.ins))
                      ((dlCell c s t i j : ℚ)
                        + (if sym s (i+1) ≠ sym t (j+1) then c.sub else 0)))
                 (match lastIdxUnder s (sym t (j+1)) (i+1),
                        lastIdxUnder t (sym s (i+1)) (j+1) with
                  | some iswap, some jswap =>
                    (if iswap = 0 ∧ jswap = 0 then 0
                     else (dlCell c s t (min (iswap - 1) i) (min (jswap - 1) j) : ℚ))
                      + ((i + 1 - iswap - 1 : ℕ) : ℚ) * c.del
                      + ((j + 1 - jswap - 1 : ℕ) : ℚ) * c.ins + c.trans
                  | _, _ => (pyMaxsize : ℚ))) := by
  simp only [dlCell]

/-- Modelled from the spec: the feature-based substitution-cost machinery of
`PhoneticEditDistance` lives in `abydos.phones._phones` (`ipa_to_features`,
`cmp_features`, `_FEATURE_MASK`), which the spec places out of scope ("The
phonetic feature-similarity function itself is consumed as a pluggable
substitution-cost provider but its internal feature-table construction is out
of scope").  The embedding therefore takes the sequences to be the feature
symbols themselves (`ipa_to_features` is the identity on the model's symbol
type) and abstracts `cmp_features(a, b, weights)` — "a weighted, symmetric
similarity over a fixed-size feature vector attached to each symbol" — as an
arbitrary function `agree : α → α → ℚ` supplied to every phonetic
definition. -/
def Agreement (α : Type) : Type := α → α → ℚ

/-- Cell `(i, j)` of the `(len(src)+1) × (len(tar)+1)` matrix built by
`PhoneticEditDistance._alignment_matrix` (dtype `np_float`, so no
truncation).  The substitution candidate of cell `(i+1, j+1)` is guarded by
`src[i] != tar[j]` but computes its graded cost from
`cmp_features(src[i], tar[i], weights)` — the second argument is `tar[i]`,
not `tar[j]`, exactly as in the source line
`sub_cost * (1.0 - cmp_features(src[i], tar[i], self._weights))`; when
`i >= len(tar)` that access raises `IndexError`, modelled by `none`. -/
def pedCell (agree : Agreement α) (c : Cost) (mode : Mode) (src tar : List α) :
    ℕ → ℕ → Option ℚ
  | i, 0 => some ((i : ℚ) * c.del)
  | 0, j+1 => some (((j : ℚ) + 1) * c.ins)
  | i+1, j+1 =>
    (pedCell agree c mode src tar (i+1) j).bind fun up =>
    (pedCell agree c mode src tar i (j+1)).bind fun left =>
    (pedCell agree c mode src tar i j).bind fun diag =>
    (if sym src i ≠ sym tar j then
        (tar[i]?).map (fun ti => c.sub * (1 - agree (sym src i) ti))
      else some 0).bind fun subc =>
    let base : ℚ := min (min (up + c.ins) (left + c.del)) (diag + subc)
    if mode = Mode.osa ∧ 1 ≤ i ∧ 1 ≤ j ∧ sym src i = sym tar (j-1) ∧ sym src (i-1) = sym tar j then
      (pedCell agree c mode src tar (i-1) (j-1)).bind fun pp =>
      some (min base (pp + c.trans))
    else some base
termination_by i j => i + j
decreasing_by all_goals omega

/-- `PhoneticEditDistance.dist_abs`: fast paths for equal / empty inputs,
otherwise the terminal cell of `_alignment_matrix` (the final
`int(...) == ...` branch of the source only changes the Python type of an
integral float, not its value). -/
def PhoneticEditDistance.dist_abs (agree : Agreement α) (c : Cost) (mode : Mode)
    (src tar : List α) : Option ℚ :=
  if src = tar then some 0
  else if src = [] then some (c.ins * (tar.length : ℚ))
  else if tar = [] then some (c.del * (src.length : ℚ))
  else pedCell agree c mode src tar src.length tar.length

/-- `PhoneticEditDistance.dist`: `0.0` for equal inputs, otherwise the raw
distance divided by `normalizer([len(src)*del_cost, len(tar)*ins_cost])`,
where `normalizer` is the caller-supplied reduction (`max` by default). -/
def PhoneticEditDistance.dist (agree : Agreement α) (c : Cost) (mode : Mode)
    (normalizer : List ℚ → ℚ) (src tar : List α) : Option ℚ :=
  if src = tar then some 0
  else (PhoneticEditDistance.dist_abs agree c mode src tar).map
    (fun d => d / normalizer [(src.length : ℚ) * c.del, (tar.length : ℚ) * c.ins])

/-- The backtrace loop of `PhoneticEditDistance.alignment`, walking from cell
`(src_pos, tar_pos)` toward `(0, 0)`: take the diagonal step when
`diag <= min(up, left)`, otherwise the `up` step (gap emitted on the source
side) when `up <= left`, otherwise the `left` step (gap on the target side);
once either index is `0` the remaining prefix of the other sequence is
consumed against gaps.  The source appends and reverses at the end; consing
onto the accumulators yields the reversed sequences directly, so the returned
lists equal the source's final (reversed) aligned strings, with `none` as the
gap marker `'-'`. -/
def pedWalk (cell : ℕ → ℕ → ℚ) (src tar : List α) :
    ℕ → ℕ → List (Option α) → List (Option α) → List (Option α) × List (Option α)
  | i+1, j+1, accS, accT =>
    if cell i j ≤ min (cell (i+1) j) (cell i (j+1)) then
      pedWalk cell src tar i j (some (sym src i) :: accS) (some (sym tar j) :: accT)
    else if cell (i+1) j ≤ cell i (j+1) then
      pedWalk cell src tar (i+1) j (none :: accS) (some (sym tar j) :: accT)
    else
      pedWalk cell src tar i (j+1) (some (sym src i) :: accS) (none :: accT)
  | 0, j+1, accS, accT =>
    pedWalk cell src tar 0 j (none :: accS) (some (sym tar j) :: accT)
  | i+1, 0, accS, accT =>
    pedWalk cell src tar i 0 (some (sym src i) :: accS) (none :: accT)
  | 0, 0, accS, accT => (accS, accT)
termination_by i j _ _ => i + j
decreasing_by all_goals omega

/-- `PhoneticEditDistance.alignment`: build the full matrix (any `IndexError`
while building it propagates — the terminal cell's value determines whether
the whole matrix was computed, since every cell is a dependency of the
terminal cell), read the distance from the terminal cell, then backtrace.
Within the walk every read is an in-range computed cell, so reading through
`Option.getD 0` is exact. -/
def PhoneticEditDistance.alignment (agree : Agreement α) (c : Cost) (mode : Mode)
    (src tar : List α) : Option (ℚ × List (Option α) × List (Option α)) :=
  (pedCell agree c mode src tar src.length tar.length).map fun d =>
    let w := pedWalk (fun i j => (pedCell agree c mode src tar i j).getD 0)
      src tar src.length tar.length [] []
    (d, w.1, w.2)

/-- The interior recurrence exactly as the spec words it, for comparison with
`pedCell`: `cell(i,j) = min(cell(i,j-1)+insert, cell(i-1,j)+delete,
cell(i-1,j-1)+subCost(src[i-1],tar[j-1]))` with
`subCost(a, b) = substitute × (1 − agreement(a, b))` for differing symbols
and `0` for equal ones, plus the OSA transposition re-minimisation.  Total:
no out-of-range access is possible. -/
def pedCellSpec (agree : Agreement α) (c : Cost) (mode : Mode) (src tar : List α) :
    ℕ → ℕ → ℚ
  | i, 0 => (i : ℚ) * c.del
  | 0, j+1 => ((j : ℚ) + 1) * c.ins
  | i+1, j+1 =>
    let base : ℚ :=
      min (min (pedCellSpec agree c mode src tar (i+1) j + c.ins)
               (pedCellSpec agree c mode src tar i (j+1) + c.del))
          (pedCellSpec agree c mode src tar i j
            + (if sym src i ≠ sym tar j then c.sub * (1 - agree (sym src i) (sym tar j)) else 0))
    if mode = Mode.osa ∧ 1 ≤ i ∧ 1 ≤ j ∧ sym src i = sym tar (j-1) ∧ sym src (i-1) = sym tar j then
      min base (pedCellSpec agree c mode src tar (i-1) (j-1) + c.trans)
    else base
termination_by i j => i + j
decreasing_by all_goals omega

theorem pedCell_zero_right (g : Agreement α) (c : Cost) (m : Mode) (s t : List α) (i : ℕ) :
    pedCell g c m s t i 0 = some ((i : ℚ) * c.del) := by
  cases i <;> simp only [pedCell]

theorem pedCell_zero_left (g : Agreement α) (c : Cost) (m : Mode) (s t : List α) (j : ℕ) :
    pedCell g c m s t 0 (j+1) = some (((j : ℚ) + 1) * c.ins) := by
  simp only [pedCell]

theorem pedCell_succ_succ (g : Agreement α) (c : Cost) (m : Mode) (s t : List α) (i j : ℕ) :
    pedCell g c m s t (i+1) (j+1) =
      ((pedCell g c m s t (i+1) j).bind fun up =>
       (pedCell g c m s t i (j+1)).bind fun left =>
       (pedCell g c m s t i j).bind fun diag =>
       (if sym s i ≠ sym t j then
           (t[i]?).map (fun ti => c.sub * (1 - g (sym s i) ti))
         else some 0).bind fun subc =>
       if m = Mode.osa ∧ 1 ≤ i ∧ 1 ≤ j ∧ sym s i = sym t (j-1) ∧ sym s (i-1) = sym t j then
         (pedCell g c m s t (i-1) (j-1)).bind fun pp =>
         some (min (min (min (up + c.ins) (left + c.del)) (diag + subc)) (pp + c.trans))
       else some (min (min (up + c.ins) (left + c.del)) (diag + subc))) := by
  simp only [pedCell]

theorem pedCellSpec_zero_right (g : Agreement α) (c : Cost) (m : Mode) (s t : List α) (i : ℕ) :
    pedCellSpec g c m s t i 0 = (i : ℚ) * c.del := by
  cases i <;> simp only [pedCellSpec]

theorem pedCellSpec_zero_left (g : Agreement α) (c : Cost) (m : Mode) (s t : List α) (j : ℕ) :
    pedCellSpec g c m s t 0 (j+1) = ((j : ℚ) + 1) * c.ins := by
  simp only [pedCellSpec]

theorem pedCellSpec_succ_succ (g : Agreement α) (c : Cost) (m : Mode) (s t : List α) (i j : ℕ) :
    pedCellSpec g c m s t (i+1) (j+1) =
      (if m = Mode.osa ∧ 1 ≤ i ∧ 1 ≤ j ∧ sym s i = sym t (j-1) ∧ sym s (i-1) = sym t j then
        min (min (min (pedCellSpec g c m s t (i+1) j + c.ins)
                      (pedCellSpec g c m s t i (j+1) + c.del))
                 (pedCellSpec g c m s t i j
                   + (if sym s i ≠ sym t j then c.sub * (1 - g (sym s i) (sym t j)) else 0)))
            (pedCellSpec g c m s t (i-1) (j-1) + c.trans)
      else
        min (min (pedCellSpec g c m s t (i+1) j + c.ins)
                 (pedCellSpec g c m s t i (j+1) + c.del))
            (pedCellSpec g c m s t i j
              + (if sym s i ≠ sym t j then c.sub * (1 - g (sym s i) (sym t j)) else 0))) := by
  simp only [pedCellSpec]

/-- Modelled from the spec: the default substitution-cost provider "returns
`0` if `a == b` else `substitute`", i.e. binary agreement: `1` for equal
symbols, `0` otherwise (a legitimate `cmp_features`-style agreement: it is
symmetric, valued in `[0, 1]`, and `1` on identical feature vectors). -/
def gBin : Agreement ℕ := fun a b => if a = b then 1 else 0

/-- Modelled from the spec: a concrete symmetric feature-agreement function
("a weighted, symmetric similarity... `1` for identical vectors"), here with
full agreement between the distinct symbols `1` and `3` and no agreement
between other distinct symbols, used to exhibit which `tar` symbol the
substitution candidate of `pedCell` actually reads. -/
def gC3 : Agreement ℕ := fun a b =>
  if a = b then 1 else if (a = 1 ∧ b = 3) ∨ (a = 3 ∧ b = 1) then 1 else 0

theorem trunc_half : trunc (1/2 : ℚ) = 0 := by
  rw [trunc_eq_floor (by norm_num), Int.floor_eq_iff]
  norm_num

theorem trunc_three_halves : trunc (3/2 : ℚ) = 1 := by
  rw [trunc_eq_floor (by norm_num), Int.floor_eq_iff]
  norm_num

/-! ## Concrete matrix evaluations

Per-cell evaluations of the DP matrices on the inputs the claims mention.
Characters are encoded as naturals: in `[0,1,2,3]` vs `[1,0,3,2]` read
`A=0, T=1, C=2, G=3` (the strings "ATCG" and "TAGC"); in `[0,1,2]` vs
`[3,1,2]` read `c=0, a=1, t=2, h=3` (the strings "cat" and "hat"). -/

theorem levATCG_lev_val : levCell (⟨1, 1, 1, 1⟩ : Cost) Mode.lev ([0,1,2,3] : List ℕ) [1,0,3,2] 4 4 = 3 := by
  have h0_0 : levCell (⟨1, 1, 1, 1⟩ : Cost) Mode.lev ([0,1,2,3] : List ℕ) [1,0,3,2] 0 0 = 0 := by
    rw [levCell_zero_right]; norm_num [sym]
  have h0_1 : levCell (⟨1, 1, 1, 1⟩ : Cost) Mode.lev ([0,1,2,3] : List ℕ) [1,0,3,2] 0 1 = 1 := by
    rw [levCell_zero_left]; norm_num [sym]
  have h1_0 : levCell (⟨1, 1, 1, 1⟩ : Cost) Mode.lev ([0,1,2,3] : List ℕ) [1,0,3,2] 1 0 = 1 := by
    rw [levCell_zero_right]; norm_num [sym]
  have h0_2 : levCell (⟨1, 1, 1, 1⟩ : Cost) Mode.lev ([0,1,2,3] : List ℕ) [1,0,3,2] 0 2 = 2 := by
    rw [levCell_zero_left]; norm_num [sym]
  have h1_1 : levCell (⟨1, 1, 1, 1⟩ : Cost) Mode.lev ([0,1,2,3] : List ℕ) [1,0,3,2] 1 1 = 1 := by
    rw [levCell_succ_succ]; norm_num [sym, List.getD, min_def, h0_0, h0_1, h1_0]
  have h2_0 : levCell (⟨1, 1, 1, 1⟩ : Cost) Mode.lev ([0,1,2,3] : List ℕ) [1,0,3,2] 2 0 = 2 := by
    rw [levCell_zero_right]; norm_num [sym]
  have h0_3 : levCell (⟨1, 1, 1, 1⟩ : Cost) Mode.lev ([0,1,2,3] : List ℕ) [1,0,3,2] 0 3 = 3 := by
    rw [levCell_zero_left]; norm_num [sym]
  have h1_2 : levCell (⟨1, 1, 1, 1⟩ : Cost) Mode.lev ([0,1,2,3] : List ℕ) [1,0,3,2] 1 2 = 1 := by
    rw [levCell_succ_succ]; norm_num [sym, List.getD, min_def, h0_0, h0_1, h0_2, h1_1]
  have h2_1 : levCell (⟨1, 1, 1, 1⟩ : Cost) Mode.lev ([0,1,2,3] : List ℕ) [1,0,3,2] 2 1 = 1 := by
    rw [levCell_succ_succ]; norm_num [sym, List.getD, min_def, h0_0, h1_0, h1_1, h2_0]
  have h3_0 : levCell (⟨1, 1, 1, 1⟩ : Cost) Mode.lev ([0,1,2,3] : List ℕ) [1,0,3,2] 3 0 = 3 := by
    rw [levCell_zero_right]; norm_num [sym]
  have h0_4 : levCell (⟨1, 1, 1, 1⟩ : Cost) Mode.lev ([0,1,2,3] : List ℕ) [1,0,3,2] 0 4 = 4 := by
    rw [levCell_zero_left]; norm_num [sym]
  have h1_3 : levCell (⟨1, 1, 1, 1⟩ : Cost) Mode.lev ([0,1,2,3] : List ℕ) [1,0,3,2] 1 3 = 2 := by
    rw [levCell_succ_succ]; norm_num [sym, List.getD, min_def, h0_1, h0_2, h0_3, h1_2]
  have h2_2 : levCell (⟨1, 1, 1, 1⟩ : Cost) Mode.lev ([0,1,2,3] : List ℕ) [1,0,3,2] 2 2 = 2 := by
    rw [levCell_succ_succ]; norm_num [sym, List.getD, min_def, h0_0, h1_1, h1_2, h2_1]
  have h3_1 : levCell (⟨1, 1, 1, 1⟩ : Cost) Mode.lev ([0,1,2,3] : List ℕ) [1,0,3,2] 3 1 = 2 := by
    rw [levCell_succ_succ]; norm_num [sym, List.getD, min_def, h1_0, h2_0, h2_1, h3_0]
  have h4_0 : levCell (⟨1, 1, 1, 1⟩ : Cost) Mode.lev ([0,1,2,3] : List ℕ) [1,0,3,2] 4 0 = 4 := by
    rw [levCell_zero_right]; norm_num [sym]
  have h1_4 : levCell (⟨1, 1, 1, 1⟩ : Cost) Mode.lev ([0,1,2,3] : List ℕ) [1,0,3,2] 1 4 = 3 := by
    rw [levCell_succ_succ]; norm_num [sym, List.getD, min_def, h0_2, h0_3, h0_4, h1_3]
  have h2_3 : levCell (⟨1, 1, 1, 1⟩ : Cost) Mode.lev ([0,1,2,3] : List ℕ) [1,0,3,2] 2 3 = 2 := by
    rw [levCell_succ_succ]; norm_num [sym, List.getD, min_def, h0_1, h1_2, h1_3, h2_2]
  have h3_2 : levCell (⟨1, 1, 1, 1⟩ : Cost) Mode.lev ([0,1,2,3] : List ℕ) [1,0,3,2] 3 2 = 2 := by
    rw [levCell_succ_succ]; norm_num [sym, List.getD, min_def, h1_0, h2_1, h2_2, h3_1]
  have h4_1 : levCell (⟨1, 1, 1, 1⟩ : Cost) Mode.lev ([0,1,2,3] : List ℕ) [1,0,3,2] 4 1 = 3 := by
    rw [levCell_succ_succ]; norm_num [sym, List.getD, min_def, h2_0, h3_0, h3_1, h4_0]
  have h2_4 : levCell (⟨1, 1, 1, 1⟩ : Cost) Mode.lev ([0,1,2,3] : List ℕ) [1,0,3,2] 2 4 = 3 := by
    rw [levCell_succ_succ]; norm_num [sym, List.getD, min_def, h0_2, h1_3, h1_4, h2_3]
  have h3_3 : levCell (⟨1, 1, 1, 1⟩ : Cost) Mode.lev ([0,1,2,3] : List ℕ) [1,0,3,2] 3 3 = 3 := by
    rw [levCell_succ_succ]; norm_num [sym, List.getD, min_def, h1_1, h2_2, h2_3, h3_2]
  have h4_2 : levCell (⟨1, 1, 1, 1⟩ : Cost) Mode.lev ([0,1,2,3] : List ℕ) [1,0,3,2] 4 2 = 3 := by
    rw [levCell_succ_succ]; norm_num [sym, List.getD, min_def, h2_0, h3_1, h3_2, h4_1]
  have h3_4 : levCell (⟨1, 1, 1, 1⟩ : Cost) Mode.lev ([0,1,2,3] : List ℕ) [1,0,3,2] 3 4 = 2 := by
    rw [levCell_succ_succ]; norm_num [sym, List.getD, min_def, h1_2, h2_3, h2_4, h3_3]
  have h4_3 : levCell (⟨1, 1, 1, 1⟩ : Cost) Mode.lev ([0,1,2,3] : List ℕ) [1,0,3,2] 4 3 = 2 := by
    rw [levCell_succ_succ]; norm_num [sym, List.getD, min_def, h2_1, h3_2, h3_3, h4_2]
  rw [levCell_succ_succ]; norm_num [sym, List.getD, min_def, h2_2, h3_3, h3_4, h4_3]

theorem levATCG_osa_val : levCell (⟨1, 1, 1, 1⟩ : Cost) Mode.osa ([0,1,2,3] : List ℕ) [1,0,3,2] 4 4 = 2 := by
  have h0_0 : levCell (⟨1, 1, 1, 1⟩ : Cost) Mode.osa ([0,1,2,3] : List ℕ) [1,0,3,2] 0 0 = 0 := by
    rw [levCell_zero_right]; norm_num [sym]
  have h0_1 : levCell (⟨1, 1, 1, 1⟩ : Cost) Mode.osa ([0,1,2,3] : List ℕ) [1,0,3,2] 0 1 = 1 := by
    rw [levCell_zero_left]; norm_num [sym]
  have h1_0 : levCell (⟨1, 1, 1, 1⟩ : Cost) Mode.osa ([0,1,2,3] : List ℕ) [1,0,3,2] 1 0 = 1 := by
    rw [levCell_zero_right]; norm_num [sym]
  have h0_2 : levCell (⟨1, 1, 1, 1⟩ : Cost) Mode.osa ([0,1,2,3] : List ℕ) [1,0,3,2] 0 2 = 2 := by
    rw [levCell_zero_left]; norm_num [sym]
  have h1_1 : levCell (⟨1, 1, 1, 1⟩ : Cost) Mode.osa ([0,1,2,3] : List ℕ) [1,0,3,2] 1 1 = 1 := by
    rw [levCell_succ_succ]; norm_num [sym, List.getD, min_def, h0_0, h0_1, h1_0]
  have h2_0 : levCell (⟨1, 1, 1, 1⟩ : Cost) Mode.osa ([0,1,2,3] : List ℕ) [1,0,3,2] 2 0 = 2 := by
    rw [levCell_zero_right]; norm_num [sym]
  have h0_3 : levCell (⟨1, 1, 1, 1⟩ : Cost) Mode.osa ([0,1,2,3] : List ℕ) [1,0,3,2] 0 3 = 3 := by
    rw [levCell_zero_left]; norm_num [sym]
  have h1_2 : levCell (⟨1, 1, 1, 1⟩ : Cost) Mode.osa ([0,1,2,3] : List ℕ) [1,0,3,2] 1 2 = 1 := by
    rw [levCell_succ_succ]; norm_num [sym, List.getD, min_def, h0_0, h0_1, h0_2, h1_1]
  have h2_1 : levCell (⟨1, 1, 1, 1⟩ : Cost) Mode.osa ([0,1,2,3] : List ℕ) [1,0,3,2] 2 1 = 1 := by
    rw [levCell_succ_succ]; norm_num [sym, List.getD, min_def, h0_0, h1_0, h1_1, h2_0]
  have h3_0 : levCell (⟨1, 1, 1, 1⟩ : Cost) Mode.osa ([0,1,2,3] : List ℕ) [1,0,3,2] 3 0 = 3 := by
    rw [levCell_zero_right]; norm_num [sym]
  have h0_4 : levCell (⟨1, 1, 1, 1⟩ : Cost) Mode.osa ([0,1,2,3] : List ℕ) [1,0,3,2] 0 4 = 4 := by
    rw [levCell_zero_left]; norm_num [sym]
  have h1_3 : levCell (⟨1, 1, 1, 1⟩ : Cost) Mode.osa ([0,1,2,3] : List ℕ) [1,0,3,2] 1 3 = 2 := by
    rw [levCell_succ_succ]; norm_num [sym, List.getD, min_def, h0_1, h0_2, h0_3, h1_2]
  have h2_2 : levCell (⟨1, 1, 1, 1⟩ : Cost) Mode.osa ([0,1,2,3] : List ℕ) [1,0,3,2] 2 2 = 1 := by
    rw [levCell_succ_succ]; norm_num [sym, List.getD, min_def, h0_0, h1_1, h1_2, h2_1]
  have h3_1 : levCell (⟨1, 1, 1, 1⟩ : Cost) Mode.osa ([0,1,2,3] : List ℕ) [1,0,3,2] 3 1 = 2 := by
    rw [levCell_succ_succ]; norm_num [sym, List.getD, min_def, h1_0, h2_0, h2_1, h3_0]
  have h4_0 : levCell (⟨1, 1, 1, 1⟩ : Cost) Mode.osa ([0,1,2,3] : List ℕ) [1,0,3,2] 4 0 = 4 := by
    rw [levCell_zero_right]; norm_num [sym]
  have h1_4 : levCell (⟨1, 1, 1, 1⟩ : Cost) Mode.osa ([0,1,2,3] : List ℕ) [1,0,3,2] 1 4 = 3 := by
    rw [levCell_succ_succ]; norm_num [sym, List.getD, min_def, h0_2, h0_3, h0_4, h1_3]
  have h2_3 : levCell (⟨1, 1, 1, 1⟩ : Cost) Mode.osa ([0,1,2,3] : List ℕ) [1,0,3,2] 2 3 = 2 := by
    rw [levCell_succ_succ]; norm_num [sym, List.getD, min_def, h0_1, h1_2, h1_3, h2_2]
  have h3_2 : levCell (⟨1, 1, 1, 1⟩ : Cost) Mode.osa ([0,1,2,3] : List ℕ) [1,0,3,2] 3 2 = 2 := by
    rw [levCell_succ_succ]; norm_num [sym, List.getD, min_def, h1_0, h2_1, h2_2, h3_1]
  have h4_1 : levCell (⟨1, 1, 1, 1⟩ : Cost) Mode.osa ([0,1,2,3] : List ℕ) [1,0,3,2] 4 1 = 3 := by
    rw [levCell_succ_succ]; norm_num [sym, List.getD, min_def, h2_0, h3_0, h3_1, h4_0]
  have h2_4 : levCell (⟨1, 1, 1, 1⟩ : Cost) Mode.osa ([0,1,2,3] : List ℕ) [1,0,3,2] 2 4 = 3 := by
    rw [levCell_succ_succ]; norm_num [sym, List.getD, min_def, h0_2, h1_3, h1_4, h2_3]
  have h3_3 : levCell (⟨1, 1, 1, 1⟩ : Cost) Mode.osa ([0,1,2,3] : List ℕ) [1,0,3,2] 3 3 = 2 := by
    rw [levCell_succ_succ]; norm_num [sym, List.getD, min_def, h1_1, h2_2, h2_3, h3_2]
  have h4_2 : levCell (⟨1, 1, 1, 1⟩ : Cost) Mode.osa ([0,1,2,3] : List ℕ) [1,0,3,2] 4 2 = 3 := by
    rw [levCell_succ_succ]; norm_num [sym, List.getD, min_def, h2_0, h3_1, h3_2, h4_1]
  have h3_4 : levCell (⟨1, 1, 1, 1⟩ : Cost) Mode.osa ([0,1,2,3] : List ℕ) [1,0,3,2] 3 4 = 2 := by
    rw [levCell_succ_succ]; norm_num [sym, List.getD, min_def, h1_2, h2_3, h2_4, h3_3]
  have h4_3 : levCell (⟨1, 1, 1, 1⟩ : Cost) Mode.osa ([0,1,2,3] : List ℕ) [1,0,3,2] 4 3 = 2 := by
    rw [levCell_succ_succ]; norm_num [sym, List.getD, min_def, h2_1, h3_2, h3_3, h4_2]
  rw [levCell_succ_succ]; norm_num [sym, List.getD, min_def, h2_2, h3_3, h3_4, h4_3]

theorem dlATCG_val : dlCell (⟨1, 1, 1, 1⟩ : Cost) ([0,1,2,3] : List ℕ) [1,0,3,2] 3 3 = 2 := by
  have h0_0 : dlCell (⟨1, 1, 1, 1⟩ : Cost) ([0,1,2,3] : List ℕ) [1,0,3,2] 0 0 = 1 := by
    rw [dlCell_zero_zero]; norm_num [sym, List.getD, min_def]
  have h0_1 : dlCell (⟨1, 1, 1, 1⟩ : Cost) ([0,1,2,3] : List ℕ) [1,0,3,2] 0 1 = 1 := by
    rw [dlCell_zero_succ]; norm_num [sym, List.getD, min_def, h0_0]
  have h1_0 : dlCell (⟨1, 1, 1, 1⟩ : Cost) ([0,1,2,3] : List ℕ) [1,0,3,2] 1 0 = 1 := by
    rw [dlCell_succ_zero]; norm_num [sym, List.getD, min_def, h0_0]
  have h0_2 : dlCell (⟨1, 1, 1, 1⟩ : Cost) ([0,1,2,3] : List ℕ) [1,0,3,2] 0 2 = 2 := by
    rw [dlCell_zero_succ]; norm_num [sym, List.getD, min_def, h0_1]
  have h1_1 : dlCell (⟨1, 1, 1, 1⟩ : Cost) ([0,1,2,3] : List ℕ) [1,0,3,2] 1 1 = 1 := by
    rw [dlCell_succ_succ]; norm_num [sym, List.getD, min_def, lastIdxUnder, pyMaxsize, h0_0, h0_1, h1_0]
  have h2_0 : dlCell (⟨1, 1, 1, 1⟩ : Cost) ([0,1,2,3] : List ℕ) [1,0,3,2] 2 0 = 2 := by
    rw [dlCell_succ_zero]; norm_num [sym, List.getD, min_def, h1_0]
  have h0_3 : dlCell (⟨1, 1, 1, 1⟩ : Cost) ([0,1,2,3] : List ℕ) [1,0,3,2] 0 3 = 3 := by
    rw [dlCell_zero_succ]; norm_num [sym, List.getD, min_def, h0_2]
  have h1_2 : dlCell (⟨1, 1, 1, 1⟩ : Cost) ([0,1,2,3] : List ℕ) [1,0,3,2] 1 2 = 2 := by
    rw [dlCell_succ_succ]; norm_num [sym, List.getD, min_def, lastIdxUnder, pyMaxsize, h0_1, h0_2, h1_1]
  have h2_1 : dlCell (⟨1, 1, 1, 1⟩ : Cost) ([0,1,2,3] : List ℕ) [1,0,3,2] 2 1 = 2 := by
    rw [dlCell_succ_succ]; norm_num [sym, List.getD, min_def, lastIdxUnder, pyMaxsize, h1_0, h1_1, h2_0]
  have h3_0 : dlCell (⟨1, 1, 1, 1⟩ : Cost) ([0,1,2,3] : List ℕ) [1,0,3,2] 3 0 = 3 := by
    rw [dlCell_succ_zero]; norm_num [sym, List.getD, min_def, h2_0]
  have h1_3 : dlCell (⟨1, 1, 1, 1⟩ : Cost) ([0,1,2,3] : List ℕ) [1,0,3,2] 1 3 = 3 := by
    rw [dlCell_succ_succ]; norm_num [sym, List.getD, min_def, lastIdxUnder, pyMaxsize, h0_2, h0_3, h1_2]
  have h2_2 : dlCell (⟨1, 1, 1, 1⟩ : Cost) ([0,1,2,3] : List ℕ) [1,0,3,2] 2 2 = 2 := by
    rw [dlCell_succ_succ]; norm_num [sym, List.getD, min_def, lastIdxUnder, pyMaxsize, h1_1, h1_2, h2_1]
  have h3_1 : dlCell (⟨1, 1, 1, 1⟩ : Cost) ([0,1,2,3] : List ℕ) [1,0,3,2] 3 1 = 3 := by
    rw [dlCell_succ_succ]; norm_num [sym, List.getD, min_def, lastIdxUnder, pyMaxsize, h2_0, h2_1, h3_0]
  have h2_3 : dlCell (⟨1, 1, 1, 1⟩ : Cost) ([0,1,2,3] : List ℕ) [1,0,3,2] 2 3 = 2 := by
    rw [dlCell_succ_succ]; norm_num [sym, List.getD, min_def, lastIdxUnder, pyMaxsize, h1_2, h1_3, h2_2]
  have h3_2 : dlCell (⟨1, 1, 1, 1⟩ : Cost) ([0,1,2,3] : List ℕ) [1,0,3,2] 3 2 = 2 := by
    rw [dlCell_succ_succ]; norm_num [sym, List.getD, min_def, lastIdxUnder, pyMaxsize, h2_1, h2_2, h3_1]
  rw [dlCell_succ_succ]; norm_num [sym, List.getD, min_def, lastIdxUnder, pyMaxsize, h1_1, h2_2, h2_3, h3_2]

theorem dlCat_val : dlCell (⟨1, 1, 1, 1⟩ : Cost) ([0,1,2] : List ℕ) [3,1,2] 2 2 = 1 := by
  have h0_0 : dlCell (⟨1, 1, 1, 1⟩ : Cost) ([0,1,2] : List ℕ) [3,1,2] 0 0 = 1 := by
    rw [dlCell_zero_zero]; norm_num [sym, List.getD, min_def]
  have h0_1 : dlCell (⟨1, 1, 1, 1⟩ : Cost) ([0,1,2] : List ℕ) [3,1,2] 0 1 = 2 := by
    rw [dlCell_zero_succ]; norm_num [sym, List.getD, min_def, h0_0]
  have h1_0 : dlCell (⟨1, 1, 1, 1⟩ : Cost) ([0,1,2] : List ℕ) [3,1,2] 1 0 = 2 := by
    rw [dlCell_succ_zero]; norm_num [sym, List.getD, min_def, h0_0]
  have h0_2 : dlCell (⟨1, 1, 1, 1⟩ : Cost) ([0,1,2] : List ℕ) [3,1,2] 0 2 = 3 := by
    rw [dlCell_zero_succ]; norm_num [sym, List.getD, min_def, h0_1]
  have h1_1 : dlCell (⟨1, 1, 1, 1⟩ : Cost) ([0,1,2] : List ℕ) [3,1,2] 1 1 = 1 := by
    rw [dlCell_succ_succ]; norm_num [sym, List.getD, min_def, lastIdxUnder, pyMaxsize, h0_0, h0_1, h1_0]
  have h2_0 : dlCell (⟨1, 1, 1, 1⟩ : Cost) ([0,1,2] : List ℕ) [3,1,2] 2 0 = 3 := by
    rw [dlCell_succ_zero]; norm_num [sym, List.getD, min_def, h1_0]
  have h1_2 : dlCell (⟨1, 1, 1, 1⟩ : Cost) ([0,1,2] : List ℕ) [3,1,2] 1 2 = 2 := by
    rw [dlCell_succ_succ]; norm_num [sym, List.getD, min_def, lastIdxUnder, pyMaxsize, h0_1, h0_2, h1_1]
  have h2_1 : dlCell (⟨1, 1, 1, 1⟩ : Cost) ([0,1,2] : List ℕ) [3,1,2] 2 1 = 2 := by
    rw [dlCell_succ_succ]; norm_num [sym, List.getD, min_def, lastIdxUnder, pyMaxsize, h1_0, h1_1, h2_0]
  rw [dlCell_succ_succ]; norm_num [sym, List.getD, min_def, lastIdxUnder, pyMaxsize, h1_1, h1_2, h2_1]

theorem levHalfCost_val : levCell (⟨1/2, 1/2, 1/2, 1/2⟩ : Cost) Mode.lev ([0,1] : List ℕ) [2,3] 2 2 = 0 := by
  have h0_0 : levCell (⟨1/2, 1/2, 1/2, 1/2⟩ : Cost) Mode.lev ([0,1] : List ℕ) [2,3] 0 0 = 0 := by
    rw [levCell_zero_right]; norm_num [trunc_half, trunc_three_halves, sym]
  have h0_1 : levCell (⟨1/2, 1/2, 1/2, 1/2⟩ : Cost) Mode.lev ([0,1] : List ℕ) [2,3] 0 1 = 0 := by
    rw [levCell_zero_left]; norm_num [trunc_half, trunc_three_halves, sym]
  have h1_0 : levCell (⟨1/2, 1/2, 1/2, 1/2⟩ : Cost) Mode.lev ([0,1] : List ℕ) [2,3] 1 0 = 0 := by
    rw [levCell_zero_right]; norm_num [trunc_half, trunc_three_halves, sym]
  have h0_2 : levCell (⟨1/2, 1/2, 1/2, 1/2⟩ : Cost) Mode.lev ([0,1] : List ℕ) [2,3] 0 2 = 1 := by
    rw [levCell_zero_left]; norm_num [trunc_half, trunc_three_halves, sym]
  have h1_1 : levCell (⟨1/2, 1/2, 1/2, 1/2⟩ : Cost) Mode.lev ([0,1] : List ℕ) [2,3] 1 1 = 0 := by
    rw [levCell_succ_succ]; norm_num [trunc_half, trunc_three_halves, sym, List.getD, min_def, h0_0, h0_1, h1_0]
  have h2_0 : levCell (⟨1/2, 1/2, 1/2, 1/2⟩ : Cost) Mode.lev ([0,1] : List ℕ) [2,3] 2 0 = 1 := by
    rw [levCell_zero_right]; norm_num [trunc_half, trunc_three_halves, sym]
  have h1_2 : levCell (⟨1/2, 1/2, 1/2, 1/2⟩ : Cost) Mode.lev ([0,1] : List ℕ) [2,3] 1 2 = 0 := by
    rw [levCell_succ_succ]; norm_num [trunc_half, trunc_three_halves, sym, List.getD, min_def, h0_0, h0_1, h0_2, h1_1]
  have h2_1 : levCell (⟨1/2, 1/2, 1/2, 1/2⟩ : Cost) Mode.lev ([0,1] : List ℕ) [2,3] 2 1 = 0 := by
    rw [levCell_succ_succ]; norm_num [trunc_half, trunc_three_halves, sym, List.getD, min_def, h0_0, h1_0, h1_1, h2_0]
  rw [levCell_succ_succ]; norm_num [trunc_half, trunc_three_halves, sym, List.getD, min_def, h0_0, h1_1, h1_2, h2_1]

theorem pedC3_val : pedCell gC3 (⟨1, 1, 10, 1⟩ : Cost) Mode.lev ([0,1,3] : List ℕ) [2,3,4] 3 3 = some 2 := by
  have h0_0 : pedCell gC3 (⟨1, 1, 10, 1⟩ : Cost) Mode.lev ([0,1,3] : List ℕ) [2,3,4] 0 0 = some 0 := by
    rw [pedCell_zero_right]; norm_num [sym]
  have h0_1 : pedCell gC3 (⟨1, 1, 10, 1⟩ : Cost) Mode.lev ([0,1,3] : List ℕ) [2,3,4] 0 1 = some 1 := by
    rw [pedCell_zero_left]; norm_num [sym]
  have h1_0 : pedCell gC3 (⟨1, 1, 10, 1⟩ : Cost) Mode.lev ([0,1,3] : List ℕ) [2,3,4] 1 0 = some 1 := by
    rw [pedCell_zero_right]; norm_num [sym]
  have h0_2 : pedCell gC3 (⟨1, 1, 10, 1⟩ : Cost) Mode.lev ([0,1,3] : List ℕ) [2,3,4] 0 2 = some 2 := by
    rw [pedCell_zero_left]; norm_num [sym]
  have h1_1 : pedCell gC3 (⟨1, 1, 10, 1⟩ : Cost) Mode.lev ([0,1,3] : List ℕ) [2,3,4] 1 1 = some 2 := by
    rw [pedCell_succ_succ]; norm_num [sym, List.getD, min_def, Option.bind, gC3, h0_0, h0_1, h1_0]
  have h2_0 : pedCell gC3 (⟨1, 1, 10, 1⟩ : Cost) Mode.lev ([0,1,3] : List ℕ) [2,3,4] 2 0 = some 2 := by
    rw [pedCell_zero_right]; norm_num [sym]
  have h0_3 : pedCell gC3 (⟨1, 1, 10, 1⟩ : Cost) Mode.lev ([0,1,3] : List ℕ) [2,3,4] 0 3 = some 3 := by
    rw [pedCell_zero_left]; norm_num [sym]
  have h1_2 : pedCell gC3 (⟨1, 1, 10, 1⟩ : Cost) Mode.lev ([0,1,3] : List ℕ) [2,3,4] 1 2 = some 3 := by
    rw [pedCell_succ_succ]; norm_num [sym, List.getD, min_def, Option.bind, gC3, h0_0, h0_1, h0_2, h1_1]
  have h2_1 : pedCell gC3 (⟨1, 1, 10, 1⟩ : Cost) Mode.lev ([0,1,3] : List ℕ) [2,3,4] 2 1 = some 1 := by
    rw [pedCell_succ_succ]; norm_num [sym, List.getD, min_def, Option.bind, gC3, h0_0, h1_0, h1_1, h2_0]
  have h3_0 : pedCell gC3 (⟨1, 1, 10, 1⟩ : Cost) Mode.lev ([0,1,3] : List ℕ) [2,3,4] 3 0 = some 3 := by
    rw [pedCell_zero_right]; norm_num [sym]
  have h1_3 : pedCell gC3 (⟨1, 1, 10, 1⟩ : Cost) Mode.lev ([0,1,3] : List ℕ) [2,3,4] 1 3 = some 4 := by
    rw [pedCell_succ_succ]; norm_num [sym, List.getD, min_def, Option.bind, gC3, h0_1, h0_2, h0_3, h1_2]
  have h2_2 : pedCell gC3 (⟨1, 1, 10, 1⟩ : Cost) Mode.lev ([0,1,3] : List ℕ) [2,3,4] 2 2 = some 2 := by
    rw [pedCell_succ_succ]; norm_num [sym, List.getD, min_def, Option.bind, gC3, h0_0, h1_1, h1_2, h2_1]
  have h3_1 : pedCell gC3 (⟨1, 1, 10, 1⟩ : Cost) Mode.lev ([0,1,3] : List ℕ) [2,3,4] 3 1 = some 2 := by
    rw [pedCell_succ_succ]; norm_num [sym, List.getD, min_def, Option.bind, gC3, h1_0, h2_0, h2_1, h3_0]
  have h2_3 : pedCell gC3 (⟨1, 1, 10, 1⟩ : Cost) Mode.lev ([0,1,3] : List ℕ) [2,3,4] 2 3 = some 3 := by
    rw [pedCell_succ_succ]; norm_num [sym, List.getD, min_def, Option.bind, gC3, h0_1, h1_2, h1_3, h2_2]
  have h3_2 : pedCell gC3 (⟨1, 1, 10, 1⟩ : Cost) Mode.lev ([0,1,3] : List ℕ) [2,3,4] 3 2 = some 1 := by
    rw [pedCell_succ_succ]; norm_num [sym, List.getD, min_def, Option.bind, gC3, h1_0, h2_1, h2_2, h3_1]
  rw [pedCell_succ_succ]; norm_num [sym, List.getD, min_def, Option.bind, gC3, h1_1, h2_2, h2_3, h3_2]

theorem pedC3spec_val : pedCellSpec gC3 (⟨1, 1, 10, 1⟩ : Cost) Mode.lev ([0,1,3] : List ℕ) [2,3,4] 3 3 = 4 := by
  have h0_0 : pedCellSpec gC3 (⟨1, 1, 10, 1⟩ : Cost) Mode.lev ([0,1,3] : List ℕ) [2,3,4] 0 0 = 0 := by
    rw [pedCellSpec_zero_right]; norm_num [sym]
  have h0_1 : pedCellSpec gC3 (⟨1, 1, 10, 1⟩ : Cost) Mode.lev ([0,1,3] : List ℕ) [2,3,4] 0 1 = 1 := by
    rw [pedCellSpec_zero_left]; norm_num [sym]
  have h1_0 : pedCellSpec gC3 (⟨1, 1, 10, 1⟩ : Cost) Mode.lev ([0,1,3] : List ℕ) [2,3,4] 1 0 = 1 := by
    rw [pedCellSpec_zero_right]; norm_num [sym]
  have h0_2 : pedCellSpec gC3 (⟨1, 1, 10, 1⟩ : Cost) Mode.lev ([0,1,3] : List ℕ) [2,3,4] 0 2 = 2 := by
    rw [pedCellSpec_zero_left]; norm_num [sym]
  have h1_1 : pedCellSpec gC3 (⟨1, 1, 10, 1⟩ : Cost) Mode.lev ([0,1,3] : List ℕ) [2,3,4] 1 1 = 2 := by
    rw [pedCellSpec_succ_succ]; norm_num [sym, List.getD, min_def, Option.bind, gC3, h0_0, h0_1, h1_0]
  have h2_0 : pedCellSpec gC3 (⟨1, 1, 10, 1⟩ : Cost) Mode.lev ([0,1,3] : List ℕ) [2,3,4] 2 0 = 2 := by
    rw [pedCellSpec_zero_right]; norm_num [sym]
  have h0_3 : pedCellSpec gC3 (⟨1, 1, 10, 1⟩ : Cost) Mode.lev ([0,1,3] : List ℕ) [2,3,4] 0 3 = 3 := by
    rw [pedCellSpec_zero_left]; norm_num [sym]
  have h1_2 : pedCellSpec gC3 (⟨1, 1, 10, 1⟩ : Cost) Mode.lev ([0,1,3] : List ℕ) [2,3,4] 1 2 = 3 := by
    rw [pedCellSpec_succ_succ]; norm_num [sym, List.getD, min_def, Option.bind, gC3, h0_0, h0_1, h0_2, h1_1]
  have h2_1 : pedCellSpec gC3 (⟨1, 1, 10, 1⟩ : Cost) Mode.lev ([0,1,3] : List ℕ) [2,3,4] 2 1 = 3 := by
    rw [pedCellSpec_succ_succ]; norm_num [sym, List.getD, min_def, Option.bind, gC3, h0_0, h1_0, h1_1, h2_0]
  have h3_0 : pedCellSpec gC3 (⟨1, 1, 10, 1⟩ : Cost) Mode.lev ([0,1,3] : List ℕ) [2,3,4] 3 0 = 3 := by
    rw [pedCellSpec_zero_right]; norm_num [sym]
  have h1_3 : pedCellSpec gC3 (⟨1, 1, 10, 1⟩ : Cost) Mode.lev ([0,1,3] : List ℕ) [2,3,4] 1 3 = 4 := by
    rw [pedCellSpec_succ_succ]; norm_num [sym, List.getD, min_def, Option.bind, gC3, h0_1, h0_2, h0_3, h1_2]
  have h2_2 : pedCellSpec gC3 (⟨1, 1, 10, 1⟩ : Cost) Mode.lev ([0,1,3] : List ℕ) [2,3,4] 2 2 = 2 := by
    rw [pedCellSpec_succ_succ]; norm_num [sym, List.getD, min_def, Option.bind, gC3, h0_0, h1_1, h1_2, h2_1]
  have h3_1 : pedCellSpec gC3 (⟨1, 1, 10, 1⟩ : Cost) Mode.lev ([0,1,3] : List ℕ) [2,3,4] 3 1 = 4 := by
    rw [pedCellSpec_succ_succ]; norm_num [sym, List.getD, min_def, Option.bind, gC3, h1_0, h2_0, h2_1, h3_0]
  have h2_3 : pedCellSpec gC3 (⟨1, 1, 10, 1⟩ : Cost) Mode.lev ([0,1,3] : List ℕ) [2,3,4] 2 3 = 3 := by
    rw [pedCellSpec_succ_succ]; norm_num [sym, List.getD, min_def, Option.bind, gC3, h0_1, h1_2, h1_3, h2_2]
  have h3_2 : pedCellSpec gC3 (⟨1, 1, 10, 1⟩ : Cost) Mode.lev ([0,1,3] : List ℕ) [2,3,4] 3 2 = 3 := by
    rw [pedCellSpec_succ_succ]; norm_num [sym, List.getD, min_def, Option.bind, gC3, h1_0, h2_1, h2_2, h3_1]
  rw [pedCellSpec_succ_succ]; norm_num [sym, List.getD, min_def, Option.bind, gC3, h1_1, h2_2, h2_3, h3_2]

theorem pedCrash_val : pedCell gBin (⟨1, 1, 1, 1⟩ : Cost) Mode.lev ([0,1] : List ℕ) [0] 2 1 = none := by
  have h0_0 : pedCell gBin (⟨1, 1, 1, 1⟩ : Cost) Mode.lev ([0,1] : List ℕ) [0] 0 0 = some 0 := by
    rw [pedCell_zero_right]; norm_num [sym]
  have h0_1 : pedCell gBin (⟨1, 1, 1, 1⟩ : Cost) Mode.lev ([0,1] : List ℕ) [0] 0 1 = some 1 := by
    rw [pedCell_zero_left]; norm_num [sym]
  have h1_0 : pedCell gBin (⟨1, 1, 1, 1⟩ : Cost) Mode.lev ([0,1] : List ℕ) [0] 1 0 = some 1 := by
    rw [pedCell_zero_right]; norm_num [sym]
  have h1_1 : pedCell gBin (⟨1, 1, 1, 1⟩ : Cost) Mode.lev ([0,1] : List ℕ) [0] 1 1 = some 0 := by
    rw [pedCell_succ_succ]; norm_num [sym, List.getD, min_def, Option.bind, gBin, h0_0, h0_1, h1_0]
  have h2_0 : pedCell gBin (⟨1, 1, 1, 1⟩ : Cost) Mode.lev ([0,1] : List ℕ) [0] 2 0 = some 2 := by
    rw [pedCell_zero_right]; norm_num [sym]
  rw [pedCell_succ_succ]; norm_num [sym, List.getD, min_def, Option.bind, gBin, h0_0, h1_0, h1_1, h2_0]

theorem pedAlignATCG_val :
    PhoneticEditDistance.alignment gBin (⟨1, 1, 1, 1⟩ : Cost) Mode.lev ([0,1,2,3] : List ℕ) [1,0,3,2] =
      some (3, [some 0, some 1, some 2, some 3, none], [none, some 1, some 0, some 3, some 2]) := by
  have h0_0 : pedCell gBin (⟨1, 1, 1, 1⟩ : Cost) Mode.lev ([0,1,2,3] : List ℕ) [1,0,3,2] 0 0 = some 0 := by
    rw [pedCell_zero_right]; norm_num [sym]
  have h0_1 : pedCell gBin (⟨1, 1, 1, 1⟩ : Cost) Mode.lev ([0,1,2,3] : List ℕ) [1,0,3,2] 0 1 = some 1 := by
    rw [pedCell_zero_left]; norm_num [sym]
  have h1_0 : pedCell gBin (⟨1, 1, 1, 1⟩ : Cost) Mode.lev ([0,1,2,3] : List ℕ) [1,0,3,2] 1 0 = some 1 := by
    rw [pedCell_zero_right]; norm_num [sym]
  have h0_2 : pedCell gBin (⟨1, 1, 1, 1⟩ : Cost) Mode.lev ([0,1,2,3] : List ℕ) [1,0,3,2] 0 2 = some 2 := by
    rw [pedCell_zero_left]; norm_num [sym]
  have h1_1 : pedCell gBin (⟨1, 1, 1, 1⟩ : Cost) Mode.lev ([0,1,2,3] : List ℕ) [1,0,3,2] 1 1 = some 1 := by
    rw [pedCell_succ_succ]; norm_num [sym, List.getD, min_def, Option.bind, gBin, h0_0, h0_1, h1_0]
  have h2_0 : pedCell gBin (⟨1, 1, 1, 1⟩ : Cost) Mode.lev ([0,1,2,3] : List ℕ) [1,0,3,2] 2 0 = some 2 := by
    rw [pedCell_zero_right]; norm_num [sym]
  have h0_3 : pedCell gBin (⟨1, 1, 1, 1⟩ : Cost) Mode.lev ([0,1,2,3] : List ℕ) [1,0,3,2] 0 3 = some 3 := by
    rw [pedCell_zero_left]; norm_num [sym]
  have h1_2 : pedCell gBin (⟨1, 1, 1, 1⟩ : Cost) Mode.lev ([0,1,2,3] : List ℕ) [1,0,3,2] 1 2 = some 1 := by
    rw [pedCell_succ_succ]; norm_num [sym, List.getD, min_def, Option.bind, gBin, h0_0, h0_1, h0_2, h1_1]
  have h2_1 : pedCell gBin (⟨1, 1, 1, 1⟩ : Cost) Mode.lev ([0,1,2,3] : List ℕ) [1,0,3,2] 2 1 = some 1 := by
    rw [pedCell_succ_succ]; norm_num [sym, List.getD, min_def, Option.bind, gBin, h0_0, h1_0, h1_1, h2_0]
  have h3_0 : pedCell gBin (⟨1, 1, 1, 1⟩ : Cost) Mode.lev ([0,1,2,3] : List ℕ) [1,0,3,2] 3 0 = some 3 := by
    rw [pedCell_zero_right]; norm_num [sym]
  have h0_4 : pedCell gBin (⟨1, 1, 1, 1⟩ : Cost) Mode.lev ([0,1,2,3] : List ℕ) [1,0,3,2] 0 4 = some 4 := by
    rw [pedCell_zero_left]; norm_num [sym]
  have h1_3 : pedCell gBin (⟨1, 1, 1, 1⟩ : Cost) Mode.lev ([0,1,2,3] : List ℕ) [1,0,3,2] 1 3 = some 2 := by
    rw [pedCell_succ_succ]; norm_num [sym, List.getD, min_def, Option.bind, gBin, h0_1, h0_2, h0_3, h1_2]
  have h2_2 : pedCell gBin (⟨1, 1, 1, 1⟩ : Cost) Mode.lev ([0,1,2,3] : List ℕ) [1,0,3,2] 2 2 = some 2 := by
    rw [pedCell_succ_succ]; norm_num [sym, List.getD, min_def, Option.bind, gBin, h0_0, h1_1, h1_2, h2_1]
  have h3_1 : pedCell gBin (⟨1, 1, 1, 1⟩ : Cost) Mode.lev ([0,1,2,3] : List ℕ) [1,0,3,2] 3 1 = some 2 := by
    rw [pedCell_succ_succ]; norm_num [sym, List.getD, min_def, Option.bind, gBin, h1_0, h2_0, h2_1, h3_0]
  have h4_0 : pedCell gBin (⟨1, 1, 1, 1⟩ : Cost) Mode.lev ([0,1,2,3] : List ℕ) [1,0,3,2] 4 0 = some 4 := by
    rw [pedCell_zero_right]; norm_num [sym]
  have h1_4 : pedCell gBin (⟨1, 1, 1, 1⟩ : Cost) Mode.lev ([0,1,2,3] : List ℕ) [1,0,3,2] 1 4 = some 3 := by
    rw [pedCell_succ_succ]; norm_num [sym, List.getD, min_def, Option.bind, gBin, h0_2, h0_3, h0_4, h1_3]
  have h2_3 : pedCell gBin (⟨1, 1, 1, 1⟩ : Cost) Mode.lev ([0,1,2,3] : List ℕ) [1,0,3,2] 2 3 = some 2 := by
    rw [pedCell_succ_succ]; norm_num [sym, List.getD, min_def, Option.bind, gBin, h0_1, h1_2, h1_3, h2_2]
  have h3_2 : pedCell gBin (⟨1, 1, 1, 1⟩ : Cost) Mode.lev ([0,1,2,3] : List ℕ) [1,0,3,2] 3 2 = some 2 := by
    rw [pedCell_succ_succ]; norm_num [sym, List.getD, min_def, Option.bind, gBin, h1_0, h2_1, h2_2, h3_1]
  have h4_1 : pedCell gBin (⟨1, 1, 1, 1⟩ : Cost) Mode.lev ([0,1,2,3] : List ℕ) [1,0,3,2] 4 1 = some 3 := by
    rw [pedCell_succ_succ]; norm_num [sym, List.getD, min_def, Option.bind, gBin, h2_0, h3_0, h3_1, h4_0]
  have h2_4 : pedCell gBin (⟨1, 1, 1, 1⟩ : Cost) Mode.lev ([0,1,2,3] : List ℕ) [1,0,3,2] 2 4 = some 3 := by
    rw [pedCell_succ_succ]; norm_num [sym, List.getD, min_def, Option.bind, gBin, h0_2, h1_3, h1_4, h2_3]
  have h3_3 : pedCell gBin (⟨1, 1, 1, 1⟩ : Cost) Mode.lev ([0,1,2,3] : List ℕ) [1,0,3,2] 3 3 = some 3 := by
    rw [pedCell_succ_succ]; norm_num [sym, List.getD, min_def, Option.bind, gBin, h1_1, h2_2, h2_3, h3_2]
  have h4_2 : pedCell gBin (⟨1, 1, 1, 1⟩ : Cost) Mode.lev ([0,1,2,3] : List ℕ) [1,0,3,2] 4 2 = some 3 := by
    rw [pedCell_succ_succ]; norm_num [sym, List.getD, min_def, Option.bind, gBin, h2_0, h3_1, h3_2, h4_1]
  have h3_4 : pedCell gBin (⟨1, 1, 1, 1⟩ : Cost) Mode.lev ([0,1,2,3] : List ℕ) [1,0,3,2] 3 4 = some 2 := by
    rw [pedCell_succ_succ]; norm_num [sym, List.getD, min_def, Option.bind, gBin, h1_2, h2_3, h2_4, h3_3]
  have h4_3 : pedCell gBin (⟨1, 1, 1, 1⟩ : Cost) Mode.lev ([0,1,2,3] : List ℕ) [1,0,3,2] 4 3 = some 2 := by
    rw [pedCell_succ_succ]; norm_num [sym, List.getD, min_def, Option.bind, gBin, h2_1, h3_2, h3_3, h4_2]
  have h4_4 : pedCell gBin (⟨1, 1, 1, 1⟩ : Cost) Mode.lev ([0,1,2,3] : List ℕ) [1,0,3,2] 4 4 = some 3 := by
    rw [pedCell_succ_succ]; norm_num [sym, List.getD, min_def, Option.bind, gBin, h2_2, h3_3, h3_4, h4_3]
  norm_num [PhoneticEditDistance.alignment, pedWalk, sym, List.getD, min_def, h0_0, h0_1, h1_0, h0_2, h1_1, h2_0, h0_3, h1_2, h2_1, h3_0, h0_4, h1_3, h2_2, h3_1, h4_0, h1_4, h2_3, h3_2, h4_1, h2_4, h3_3, h4_2, h3_4, h4_3, h4_4]

/-! ## Bounds on the matrix cells -/

theorem ite_nonneg {q : ℚ} (h : 0 ≤ q) (P : Prop) [Decidable P] :
    0 ≤ (if P then q else (0:ℚ)) := by
  split
  · exact h
  · exact le_refl 0

theorem levCell_nonneg_aux (c : Cost) (m : Mode) (s t : List α)
    (h1 : 0 ≤ c.ins) (h2 : 0 ≤ c.del) (h3 : 0 ≤ c.sub) (h4 : 0 ≤ c.trans) :
    ∀ N i j, i + j ≤ N → 0 ≤ (levCell c m s t i j : ℚ) := by
  intro N
  induction N with
  | zero =>
    intro i j hij
    obtain ⟨rfl, rfl⟩ : i = 0 ∧ j = 0 := by omega
    rw [levCell_zero_right]
    exact_mod_cast trunc_nonneg (by positivity)
  | succ n ih =>
    intro i j hij
    match i, j with
    | i, 0 =>
      rw [levCell_zero_right]
      exact_mod_cast trunc_nonneg (by positivity)
    | 0, j+1 =>
      rw [levCell_zero_left]
      exact_mod_cast trunc_nonneg (by positivity)
    | i+1, j+1 =>
      have hA : 0 ≤ (levCell c m s t (i+1) j : ℚ) := ih (i+1) j (by omega)
      have hB : 0 ≤ (levCell c m s t i (j+1) : ℚ) := ih i (j+1) (by omega)
      have hC : 0 ≤ (levCell c m s t i j : ℚ) := ih i j (by omega)
      have hD : 0 ≤ (levCell c m s t (i-1) (j-1) : ℚ) := ih (i-1) (j-1) (by omega)
      have hS := ite_nonneg h3 (sym s i ≠ sym t j)
      have hbase : 0 ≤ min (min ((levCell c m s t (i+1) j : ℚ) + c.ins)
               ((levCell c m s t i (j+1) : ℚ) + c.del))
          ((levCell c m s t i j : ℚ)
            + (if sym s i ≠ sym t j then c.sub else 0)) :=
        le_min (le_min (by linarith) (by linarith)) (by linarith)
      rw [levCell_succ_succ]
      split
      · refine le_trans ?_ (le_refl _)
        have hstored : (0:ℚ) ≤ ((trunc (min (min ((levCell c m s t (i+1) j : ℚ) + c.ins)
               ((levCell c m s t i (j+1) : ℚ) + c.del))
          ((levCell c m s t i j : ℚ)
            + (if sym s i ≠ sym t j then c.sub else 0))) : ℤ) : ℚ) := by
          exact_mod_cast trunc_nonneg hbase
        exact_mod_cast trunc_nonneg (le_min hstored (by linarith))
      · exact_mod_cast trunc_nonneg hbase

theorem levCell_nonneg (c : Cost) (m : Mode) (s t : List α)
    (h1 : 0 ≤ c.ins) (h2 : 0 ≤ c.del) (h3 : 0 ≤ c.sub) (h4 : 0 ≤ c.trans)
    (i j : ℕ) : 0 ≤ (levCell c m s t i j : ℚ) :=
  levCell_nonneg_aux c m s t h1 h2 h3 h4 (i + j) i j le_rfl

/-- With unit insert/delete costs, every Wagner-Fischer cell is bounded by
`i + j` (insert/delete candidates alone give a path of that cost). -/
theorem levCell_le_linear (c : Cost) (m : Mode) (s t : List α)
    (hi : c.ins = 1) (hd : c.del = 1) (h3 : 0 ≤ c.sub) (h4 : 0 ≤ c.trans) :
    ∀ N i j, i + j ≤ N → (levCell c m s t i j : ℚ) ≤ (i : ℚ) + j := by
  have h1 : 0 ≤ c.ins := by rw [hi]; norm_num
  have h2 : 0 ≤ c.del := by rw [hd]; norm_num
  intro N
  induction N with
  | zero =>
    intro i j hij
    obtain ⟨rfl, rfl⟩ : i = 0 ∧ j = 0 := by omega
    rw [levCell_zero_right]
    push_cast
    calc ((trunc ((0:ℚ) * c.del) : ℤ) : ℚ) ≤ (0:ℚ) * c.del := trunc_le_self (by positivity)
    _ ≤ 0 + 0 := by norm_num
  | succ n ih =>
    intro i j hij
    match i, j with
    | i, 0 =>
      rw [levCell_zero_right, hd]
      push_cast
      calc ((trunc ((i:ℚ) * 1) : ℤ) : ℚ) ≤ (i : ℚ) * 1 := trunc_le_self (by positivity)
      _ ≤ (i : ℚ) + 0 := by norm_num
    | 0, j+1 =>
      rw [levCell_zero_left, hi]
      push_cast
      calc ((trunc (((j:ℚ) + 1) * 1) : ℤ) : ℚ) ≤ ((j:ℚ) + 1) * 1 := trunc_le_self (by positivity)
      _ ≤ (0 : ℚ) + (j + 1) := by norm_num
    | i+1, j+1 =>
      have hA : (levCell c m s t (i+1) j : ℚ) ≤ (i:ℚ) + 1 + j := by
        have := ih (i+1) j (by omega)
        push_cast at this ⊢
        linarith
      have hAnn : 0 ≤ (levCell c m s t (i+1) j : ℚ) :=
        levCell_nonneg c m s t h1 h2 h3 h4 (i+1) j
      have hBnn : 0 ≤ (levCell c m s t i (j+1) : ℚ) :=
        levCell_nonneg c m s t h1 h2 h3 h4 i (j+1)
      have hCnn : 0 ≤ (levCell c m s t i j : ℚ) :=
        levCell_nonneg c m s t h1 h2 h3 h4 i j
      have hDnn : 0 ≤ (levCell c m s t (i-1) (j-1) : ℚ) :=
        levCell_nonneg c m s t h1 h2 h3 h4 (i-1) (j-1)
      have hS := ite_nonneg h3 (sym s i ≠ sym t j)
      set base := min (min ((levCell c m s t (i+1) j : ℚ) + c.ins)
               ((levCell c m s t i (j+1) : ℚ) + c.del))
          ((levCell c m s t i j : ℚ)
            + (if sym s i ≠ sym t j then c.sub else 0)) with hbase_def
      have hbase_nn : 0 ≤ base :=
        le_min (le_min (by linarith) (by linarith)) (by linarith)
      have hbase_le : base ≤ (i:ℚ) + 1 + (j + 1) := by
        calc base ≤ (levCell c m s t (i+1) j : ℚ) + c.ins :=
              le_trans (min_le_left _ _) (min_le_left _ _)
        _ ≤ (i:ℚ) + 1 + (j + 1) := by rw [hi]; linarith
      have hstored_nn : (0:ℚ) ≤ ((trunc base : ℤ) : ℚ) := by
        exact_mod_cast trunc_nonneg hbase_nn
      have hstored_le : ((trunc base : ℤ) : ℚ) ≤ (i:ℚ) + 1 + (j + 1) :=
        le_trans (trunc_le_self hbase_nn) hbase_le
      rw [levCell_succ_succ, ← hbase_def]
      push_cast
      split
      · calc ((trunc (min ((trunc base : ℤ) : ℚ)
                ((levCell c m s t (i-1) (j-1) : ℚ) + c.trans)) : ℤ) : ℚ)
            ≤ min ((trunc base : ℤ) : ℚ) ((levCell c m s t (i-1) (j-1) : ℚ) + c.trans) :=
              trunc_le_self (le_min hstored_nn (by linarith))
        _ ≤ ((trunc base : ℤ) : ℚ) := min_le_left _ _
        _ ≤ (i:ℚ) + 1 + (j + 1) := hstored_le
      · exact hstored_le

/-- With unit insert/delete and a substitution cost `≤ 1`, every
Wagner-Fischer cell is bounded by `max i j` (follow the diagonal, then the
remaining inserts or deletes). -/
theorem levCell_le_max (c : Cost) (m : Mode) (s t : List α)
    (hi : c.ins = 1) (hd : c.del = 1) (h3 : 0 ≤ c.sub) (hs1 : c.sub ≤ 1)
    (h4 : 0 ≤ c.trans) :
    ∀ N i j, i + j ≤ N → (levCell c m s t i j : ℚ) ≤ max (i : ℚ) (j : ℚ) := by
  have h1 : 0 ≤ c.ins := by rw [hi]; norm_num
  have h2 : 0 ≤ c.del := by rw [hd]; norm_num
  intro N
  induction N with
  | zero =>
    intro i j hij
    obtain ⟨rfl, rfl⟩ : i = 0 ∧ j = 0 := by omega
    rw [levCell_zero_right]
    calc ((trunc ((0:ℕ) * c.del : ℚ) : ℤ) : ℚ) ≤ ((0:ℕ):ℚ) * c.del := trunc_le_self (by positivity)
    _ ≤ max ((0:ℕ):ℚ) ((0:ℕ):ℚ) := by norm_num
  | succ n ih =>
    intro i j hij
    match i, j with
    | i, 0 =>
      rw [levCell_zero_right, hd]
      calc ((trunc ((i:ℚ) * 1) : ℤ) : ℚ) ≤ (i : ℚ) * 1 := trunc_le_self (by positivity)
      _ ≤ max ((i:ℕ):ℚ) ((0:ℕ):ℚ) := by simp
    | 0, j+1 =>
      rw [levCell_zero_left, hi]
      have : ((j:ℚ) + 1) * 1 ≤ max ((0:ℕ):ℚ) ((j+1:ℕ):ℚ) := by
        push_cast
        simp
      exact le_trans (trunc_le_self (by positivity)) this
    | i+1, j+1 =>
      have hC : (levCell c m s t i j : ℚ) ≤ max (i:ℚ) (j:ℚ) := ih i j (by omega)
      have hAnn : 0 ≤ (levCell c m s t (i+1) j : ℚ) :=
        levCell_nonneg c m s t h1 h2 h3 h4 (i+1) j
      have hBnn : 0 ≤ (levCell c m s t i (j+1) : ℚ) :=
        levCell_nonneg c m s t h1 h2 h3 h4 i (j+1)
      have hCnn : 0 ≤ (levCell c m s t i j : ℚ) :=
        levCell_nonneg c m s t h1 h2 h3 h4 i j
      have hDnn : 0 ≤ (levCell c m s t (i-1) (j-1) : ℚ) :=
        levCell_nonneg c m s t h1 h2 h3 h4 (i-1) (j-1)
      have hS := ite_nonneg h3 (sym s i ≠ sym t j)
      have hSle : (if sym s i ≠ sym t j then c.sub else 0) ≤ 1 := by
        split
        · exact hs1
        · norm_num
      set base := min (min ((levCell c m s t (i+1) j : ℚ) + c.ins)
               ((levCell c m s t i (j+1) : ℚ) + c.del))
          ((levCell c m s t i j : ℚ)
            + (if sym s i ≠ sym t j then c.sub else 0)) with hbase_def
      have hbase_nn : 0 ≤ base :=
        le_min (le_min (by linarith) (by linarith)) (by linarith)
      have hmax : max (i:ℚ) (j:ℚ) + 1 = max ((i+1:ℕ):ℚ) ((j+1:ℕ):ℚ) := by
        push_cast
        rw [max_add_add_right]
      have hbase_le : base ≤ max ((i+1:ℕ):ℚ) ((j+1:ℕ):ℚ) := by
        calc base ≤ (levCell c m s t i j : ℚ) + (if sym s i ≠ sym t j then c.sub else 0) :=
              min_le_right _ _
        _ ≤ max (i:ℚ) (j:ℚ) + 1 := by linarith
        _ = max ((i+1:ℕ):ℚ) ((j+1:ℕ):ℚ) := hmax
      have hstored_nn : (0:ℚ) ≤ ((trunc base : ℤ) : ℚ) := by
        exact_mod_cast trunc_nonneg hbase_nn
      have hstored_le : ((trunc base : ℤ) : ℚ) ≤ max ((i+1:ℕ):ℚ) ((j+1:ℕ):ℚ) :=
        le_trans (trunc_le_self hbase_nn) hbase_le
      rw [levCell_succ_succ, ← hbase_def]
      split
      · calc ((trunc (min ((trunc base : ℤ) : ℚ)
                ((levCell c m s t (i-1) (j-1) : ℚ) + c.trans)) : ℤ) : ℚ)
            ≤ min ((trunc base : ℤ) : ℚ) ((levCell c m s t (i-1) (j-1) : ℚ) + c.trans) :=
              trunc_le_self (le_min hstored_nn (by linarith))
        _ ≤ ((trunc base : ℤ) : ℚ) := min_le_left _ _
        _ ≤ max ((i+1:ℕ):ℚ) ((j+1:ℕ):ℚ) := hstored_le
      · exact hstored_le

theorem pyMaxsize_nonneg : (0:ℚ) ≤ ((pyMaxsize : ℤ) : ℚ) := by
  norm_num [pyMaxsize]

theorem dlCell_nonneg_aux (c : Cost) (s t : List α)
    (h1 : 0 ≤ c.ins) (h2 : 0 ≤ c.del) (h3 : 0 ≤ c.sub) (h4 : 0 ≤ c.trans) :
    ∀ N i j, i + j ≤ N → 0 ≤ (dlCell c s t i j : ℚ) := by
  intro N
  induction N with
  | zero =>
    intro i j hij
    obtain ⟨rfl, rfl⟩ : i = 0 ∧ j = 0 := by omega
    rw [dlCell_zero_zero]
    split
    · exact_mod_cast trunc_nonneg (le_min h3 (by linarith))
    · norm_num
  | succ n ih =>
    intro i j hij
    match i, j with
    | 0, 0 =>
      rw [dlCell_zero_zero]
      split
      · exact_mod_cast trunc_nonneg (le_min h3 (by linarith))
      · norm_num
    | i+1, 0 =>
      have hA : 0 ≤ (dlCell c s t i 0 : ℚ) := ih i 0 (by omega)
      rw [dlCell_succ_zero]
      have hin : (0:ℚ) ≤ ((i:ℚ) + 1) * c.del
          + (if sym s (i+1) = sym t 0 then 0 else c.sub) := by
        have : (0:ℚ) ≤ (if sym s (i+1) = sym t 0 then 0 else c.sub) := by
          split
          · norm_num
          · exact h3
        have : (0:ℚ) ≤ ((i:ℚ) + 1) * c.del := by positivity
        linarith [show (0:ℚ) ≤ (if sym s (i+1) = sym t 0 then 0 else c.sub) from by
          split
          · norm_num
          · exact h3]
      refine le_trans (le_refl 0) ?_
      have h2i : (0:ℚ) ≤ ((i:ℚ) + 2) * c.del + c.ins := by positivity
      exact_mod_cast trunc_nonneg (le_min (le_min (by linarith) h2i) hin)
    | 0, j+1 =>
      have hA : 0 ≤ (dlCell c s t 0 j : ℚ) := ih 0 j (by omega)
      rw [dlCell_zero_succ]
      have hin : (0:ℚ) ≤ ((j:ℚ) + 1) * c.ins
          + (if sym s 0 = sym t (j+1) then 0 else c.sub) := by
        have hx : (0:ℚ) ≤ (if sym s 0 = sym t (j+1) then 0 else c.sub) := by
          split
          · norm_num
          · exact h3
        have hy : (0:ℚ) ≤ ((j:ℚ) + 1) * c.ins := by positivity
        linarith
      have h2j : (0:ℚ) ≤ ((j:ℚ) + 2) * c.ins + c.del := by positivity
      exact_mod_cast trunc_nonneg (le_min (le_min h2j (by linarith)) hin)
    | i+1, j+1 =>
      have hA : 0 ≤ (dlCell c s t i (j+1) : ℚ) := ih i (j+1) (by omega)
      have hB : 0 ≤ (dlCell c s t (i+1) j : ℚ) := ih (i+1) j (by omega)
      have hC : 0 ≤ (dlCell c s t i j : ℚ) := ih i j (by omega)
      rw [dlCell_succ_succ]
      have hmatch : (0:ℚ) ≤ (dlCell c s t i j : ℚ)
          + (if sym s (i+1) ≠ sym t (j+1) then c.sub else 0) := by
        have := ite_nonneg h3 (sym s (i+1) ≠ sym t (j+1))
        linarith
      rcases h1sw : lastIdxUnder s (sym t (j+1)) (i+1) with _ | iswap <;>
        rcases h2sw : lastIdxUnder t (sym s (i+1)) (j+1) with _ | jswap <;>
        simp only [h1sw, h2sw]
      · exact_mod_cast trunc_nonneg (le_min (le_min (le_min (by linarith) (by linarith))
          hmatch) pyMaxsize_nonneg)
      · exact_mod_cast trunc_nonneg (le_min (le_min (le_min (by linarith) (by linarith))
          hmatch) pyMaxsize_nonneg)
      · exact_mod_cast trunc_nonneg (le_min (le_min (le_min (by linarith) (by linarith))
          hmatch) pyMaxsize_nonneg)
      · have hpre : (0:ℚ) ≤ (if iswap = 0 ∧ jswap = 0 then 0
            else (dlCell c s t (min (iswap - 1) i) (min (jswap - 1) j) : ℚ)) := by
          split
          · norm_num
          · exact ih (min (iswap - 1) i) (min (jswap - 1) j) (by omega)
        have hswap : (0:ℚ) ≤ (if iswap = 0 ∧ jswap = 0 then 0
            else (dlCell c s t (min (iswap - 1) i) (min (jswap - 1) j) : ℚ))
            + ((i + 1 - iswap - 1 : ℕ) : ℚ) * c.del
            + ((j + 1 - jswap - 1 : ℕ) : ℚ) * c.ins + c.trans := by
          have hx : (0:ℚ) ≤ ((i + 1 - iswap - 1 : ℕ) : ℚ) * c.del := by positivity
          have hy : (0:ℚ) ≤ ((j + 1 - jswap - 1 : ℕ) : ℚ) * c.ins := by positivity
          linarith
        exact_mod_cast trunc_nonneg (le_min (le_min (le_min (by linarith) (by linarith))
          hmatch) hswap)

theorem dlCell_nonneg (c : Cost) (s t : List α)
    (h1 : 0 ≤ c.ins) (h2 : 0 ≤ c.del) (h3 : 0 ≤ c.sub) (h4 : 0 ≤ c.trans)
    (i j : ℕ) : 0 ≤ (dlCell c s t i j : ℚ) :=
  dlCell_nonneg_aux c s t h1 h2 h3 h4 (i + j) i j le_rfl

/-- With unit insert/delete and substitution cost in `[0, 1]`, every cell of
the Damerau-Levenshtein matrix (which holds the distance between the
inclusive prefixes `src[0..i]`, `tar[0..j]`) is bounded by `max i j + 1`. -/
theorem dlCell_le_max (c : Cost) (s t : List α)
    (hi : c.ins = 1) (hd : c.del = 1) (h3 : 0 ≤ c.sub) (hs1 : c.sub ≤ 1)
    (h4 : 0 ≤ c.trans) :
    ∀ N i j, i + j ≤ N → (dlCell c s t i j : ℚ) ≤ max (i : ℚ) (j : ℚ) + 1 := by
  have h1 : 0 ≤ c.ins := by rw [hi]; norm_num
  have h2 : 0 ≤ c.del := by rw [hd]; norm_num
  intro N
  induction N with
  | zero =>
    intro i j hij
    obtain ⟨rfl, rfl⟩ : i = 0 ∧ j = 0 := by omega
    rw [dlCell_zero_zero]
    split
    · have hle : min c.sub (c.ins + c.del) ≤ 1 := le_trans (min_le_left _ _) hs1
      have hnn : (0:ℚ) ≤ min c.sub (c.ins + c.del) := le_min h3 (by linarith)
      have hle2 : ((trunc (min c.sub (c.ins + c.del)) : ℤ) : ℚ) ≤ 1 :=
        le_trans (trunc_le_self hnn) hle
      refine le_trans hle2 ?_
      norm_num
    · push_cast
      norm_num
  | succ n ih =>
    intro i j hij
    match i, j with
    | 0, 0 =>
      rw [dlCell_zero_zero]
      split
      · have hle : min c.sub (c.ins + c.del) ≤ 1 := le_trans (min_le_left _ _) hs1
        have hnn : (0:ℚ) ≤ min c.sub (c.ins + c.del) := le_min h3 (by linarith)
        have hle2 : ((trunc (min c.sub (c.ins + c.del)) : ℤ) : ℚ) ≤ 1 :=
          le_trans (trunc_le_self hnn) hle
        refine le_trans hle2 ?_
        norm_num
      · push_cast
        norm_num
    | i+1, 0 =>
      have hA : 0 ≤ (dlCell c s t i 0 : ℚ) := dlCell_nonneg c s t h1 h2 h3 h4 i 0
      rw [dlCell_succ_zero, hi, hd]
      have hite : (if sym s (i+1) = sym t 0 then (0:ℚ) else c.sub) ≤ 1 := by
        split
        · norm_num
        · exact hs1
      have hite0 : (0:ℚ) ≤ (if sym s (i+1) = sym t 0 then (0:ℚ) else c.sub) := by
        split
        · norm_num
        · exact h3
      have hnn : (0:ℚ) ≤ min (min ((dlCell c s t i 0 : ℚ) + 1) (((i:ℚ) + 2) * 1 + 1))
          (((i:ℚ) + 1) * 1 + (if sym s (i+1) = sym t 0 then 0 else c.sub)) := by
        refine le_min (le_min (by linarith) (by positivity)) ?_
        have : (0:ℚ) ≤ ((i:ℚ) + 1) * 1 := by positivity
        linarith
      have hle : min (min ((dlCell c s t i 0 : ℚ) + 1) (((i:ℚ) + 2) * 1 + 1))
          (((i:ℚ) + 1) * 1 + (if sym s (i+1) = sym t 0 then 0 else c.sub))
          ≤ max ((i+1 : ℕ) : ℚ) ((0:ℕ):ℚ) + 1 := by
        have : ((i:ℚ) + 1) * 1 + (if sym s (i+1) = sym t 0 then 0 else c.sub)
            ≤ (i:ℚ) + 2 := by linarith
        refine le_trans (min_le_right _ _) (le_trans this ?_)
        push_cast
        rw [max_eq_left (by positivity)]
        linarith
      exact le_trans (trunc_le_self hnn) hle
    | 0, j+1 =>
      have hA : 0 ≤ (dlCell c s t 0 j : ℚ) := dlCell_nonneg c s t h1 h2 h3 h4 0 j
      rw [dlCell_zero_succ, hi, hd]
      have hite : (if sym s 0 = sym t (j+1) then (0:ℚ) else c.sub) ≤ 1 := by
        split
        · norm_num
        · exact hs1
      have hite0 : (0:ℚ) ≤ (if sym s 0 = sym t (j+1) then (0:ℚ) else c.sub) := by
        split
        · norm_num
        · exact h3
      have hnn : (0:ℚ) ≤ min (min (((j:ℚ) + 2) * 1 + 1) ((dlCell c s t 0 j : ℚ) + 1))
          (((j:ℚ) + 1) * 1 + (if sym s 0 = sym t (j+1) then 0 else c.sub)) := by
        refine le_min (le_min (by positivity) (by linarith)) ?_
        have : (0:ℚ) ≤ ((j:ℚ) + 1) * 1 := by positivity
        linarith
      have hle : min (min (((j:ℚ) + 2) * 1 + 1) ((dlCell c s t 0 j : ℚ) + 1))
          (((j:ℚ) + 1) * 1 + (if sym s 0 = sym t (j+1) then 0 else c.sub))
          ≤ max ((0:ℕ):ℚ) ((j+1 : ℕ) : ℚ) + 1 := by
        have : ((j:ℚ) + 1) * 1 + (if sym s 0 = sym t (j+1) then 0 else c.sub)
            ≤ (j:ℚ) + 2 := by linarith
        refine le_trans (min_le_right _ _) (le_trans this ?_)
        push_cast
        rw [max_eq_right (by positivity)]
        linarith
      exact le_trans (trunc_le_self hnn) hle
    | i+1, j+1 =>
      have hA : 0 ≤ (dlCell c s t i (j+1) : ℚ) := dlCell_nonneg c s t h1 h2 h3 h4 i (j+1)
      have hB : 0 ≤ (dlCell c s t (i+1) j : ℚ) := dlCell_nonneg c s t h1 h2 h3 h4 (i+1) j
      have hC : (dlCell c s t i j : ℚ) ≤ max (i:ℚ) (j:ℚ) + 1 := ih i j (by omega)
      have hCnn : 0 ≤ (dlCell c s t i j : ℚ) := dlCell_nonneg c s t h1 h2 h3 h4 i j
      have hite : (if sym s (i+1) ≠ sym t (j+1) then c.sub else (0:ℚ)) ≤ 1 := by
        split
        · exact hs1
        · norm_num
      have hite0 := ite_nonneg h3 (sym s (i+1) ≠ sym t (j+1))
      have hmatch : (dlCell c s t i j : ℚ)
          + (if sym s (i+1) ≠ sym t (j+1) then c.sub else 0)
          ≤ max ((i+1:ℕ):ℚ) ((j+1:ℕ):ℚ) + 1 := by
        have hmx : max (i:ℚ) (j:ℚ) + 1 = max ((i+1:ℕ):ℚ) ((j+1:ℕ):ℚ) := by
          push_cast
          rw [max_add_add_right]
        calc (dlCell c s t i j : ℚ)
            + (if sym s (i+1) ≠ sym t (j+1) then c.sub else 0)
            ≤ (max (i:ℚ) (j:ℚ) + 1) + 1 := by linarith
        _ = max ((i+1:ℕ):ℚ) ((j+1:ℕ):ℚ) + 1 := by rw [hmx]
      have hmatch0 : (0:ℚ) ≤ (dlCell c s t i j : ℚ)
          + (if sym s (i+1) ≠ sym t (j+1) then c.sub else 0) := by linarith
      rw [dlCell_succ_succ]
      rcases h1sw : lastIdxUnder s (sym t (j+1)) (i+1) with _ | iswap <;>
        rcases h2sw : lastIdxUnder t (sym s (i+1)) (j+1) with _ | jswap <;>
        simp only [h1sw, h2sw]
      · have hnn := le_min (le_min (le_min (by linarith : (0:ℚ) ≤ (dlCell c s t i (j+1) : ℚ) + c.del)
          (by linarith : (0:ℚ) ≤ (dlCell c s t (i+1) j : ℚ) + c.ins)) hmatch0) pyMaxsize_nonneg
        refine le_trans (trunc_le_self hnn) ?_
        exact le_trans (le_trans (min_le_left _ _) (min_le_right _ _)) hmatch
      · have hnn := le_min (le_min (le_min (by linarith : (0:ℚ) ≤ (dlCell c s t i (j+1) : ℚ) + c.del)
          (by linarith : (0:ℚ) ≤ (dlCell c s t (i+1) j : ℚ) + c.ins)) hmatch0) pyMaxsize_nonneg
        refine le_trans (trunc_le_self hnn) ?_
        exact le_trans (le_trans (min_le_left _ _) (min_le_right _ _)) hmatch
      · have hnn := le_min (le_min (le_min (by linarith : (0:ℚ) ≤ (dlCell c s t i (j+1) : ℚ) + c.del)
          (by linarith : (0:ℚ) ≤ (dlCell c s t (i+1) j : ℚ) + c.ins)) hmatch0) pyMaxsize_nonneg
        refine le_trans (trunc_le_self hnn) ?_
        exact le_trans (le_trans (min_le_left _ _) (min_le_right _ _)) hmatch
      · have hpre : (0:ℚ) ≤ (if iswap = 0 ∧ jswap = 0 then 0
            else (dlCell c s t (min (iswap - 1) i) (min (jswap - 1) j) : ℚ)) := by
          split
          · norm_num
          · exact dlCell_nonneg c s t h1 h2 h3 h4 _ _
        have hswap0 : (0:ℚ) ≤ (if iswap = 0 ∧ jswap = 0 then 0
            else (dlCell c s t (min (iswap - 1) i) (min (jswap - 1) j) : ℚ))
            + ((i + 1 - iswap - 1 : ℕ) : ℚ) * c.del
            + ((j + 1 - jswap - 1 : ℕ) : ℚ) * c.ins + c.trans := by
          have hx : (0:ℚ) ≤ ((i + 1 - iswap - 1 : ℕ) : ℚ) * c.del := by positivity
          have hy : (0:ℚ) ≤ ((j + 1 - jswap - 1 : ℕ) : ℚ) * c.ins := by positivity
          linarith
        have hnn := le_min (le_min (le_min (by linarith : (0:ℚ) ≤ (dlCell c s t i (j+1) : ℚ) + c.del)
          (by linarith : (0:ℚ) ≤ (dlCell c s t (i+1) j : ℚ) + c.ins)) hmatch0) hswap0
        refine le_trans (trunc_le_self hnn) ?_
        exact le_trans (le_trans (min_le_left _ _) (min_le_right _ _)) hmatch

/-! ## Symmetry with `insert == delete` -/

theorem levCell_swap (c : Cost) (m : Mode) (s t : List α) (h : c.ins = c.del) :
    ∀ N i j, i + j ≤ N → levCell c m s t i j = levCell c m t s j i := by
  intro N
  induction N with
  | zero =>
    intro i j hij
    obtain ⟨rfl, rfl⟩ : i = 0 ∧ j = 0 := by omega
    rw [levCell_zero_right, levCell_zero_right]
  | succ n ih =>
    intro i j hij
    match i, j with
    | 0, 0 => rw [levCell_zero_right, levCell_zero_right]
    | k+1, 0 =>
      rw [levCell_zero_right, levCell_zero_left, h]
      congr 1
      push_cast
      ring
    | 0, k+1 =>
      rw [levCell_zero_left, levCell_zero_right, h]
      congr 1
      push_cast
      ring
    | i+1, j+1 =>
      rw [levCell_succ_succ, levCell_succ_succ,
        ← ih i (j+1) (by omega), ← ih (i+1) j (by omega), ← ih i j (by omega),
        ← ih (i-1) (j-1) (by omega), h]
      simp only [show ((sym t j ≠ sym s i)) ↔ (sym s i ≠ sym t j) from ne_comm]
      rw [min_comm ((levCell c m s t i (j+1) : ℚ) + c.del)
          ((levCell c m s t (i+1) j : ℚ) + c.del)]
      have hcond : (m = Mode.osa ∧ 1 ≤ j ∧ 1 ≤ i ∧ sym t j = sym s (i-1) ∧ sym t (j-1) = sym s i)
          = (m = Mode.osa ∧ 1 ≤ i ∧ 1 ≤ j ∧ sym s i = sym t (j-1) ∧ sym s (i-1) = sym t j) := by
        apply propext
        constructor
        · rintro ⟨a, b, cc, d, e⟩
          exact ⟨a, cc, b, e.symm, d.symm⟩
        · rintro ⟨a, b, cc, d, e⟩
          exact ⟨a, cc, b, e.symm, d.symm⟩
      simp only [hcond]

/-- `Levenshtein.dist_abs` is symmetric whenever `ins_cost == del_cost`. -/
theorem levDistAbsSwap (c : Cost) (m : Mode) (s t : List α)
    (h : c.ins = c.del) :
    Levenshtein.dist_abs c m s t = Levenshtein.dist_abs c m t s := by
  unfold Levenshtein.dist_abs
  by_cases hst : s = t
  · rw [if_pos hst, if_pos hst.symm]
  · have hts : ¬ t = s := fun e => hst e.symm
    rw [if_neg hst, if_neg hts]
    by_cases hs : s = []
    · have ht : ¬ t = [] := by
        intro he
        exact hst (by rw [hs, he])
      rw [if_pos hs, if_neg ht, if_pos hs, h]
    · by_cases ht : t = []
      · rw [if_neg hs, if_pos ht, if_pos ht, h]
      · rw [if_neg hs, if_neg ht, if_neg ht, if_neg hs]
        exact_mod_cast levCell_swap c m s t h (s.length + t.length) s.length t.length le_rfl

theorem dlCell_swap (c : Cost) (s t : List α) (h : c.ins = c.del) :
    ∀ N i j, i + j ≤ N → dlCell c s t i j = dlCell c t s j i := by
  intro N
  induction N with
  | zero =>
    intro i j hij
    obtain ⟨rfl, rfl⟩ : i = 0 ∧ j = 0 := by omega
    rw [dlCell_zero_zero, dlCell_zero_zero]
    simp only [show ((sym t 0 ≠ sym s 0)) ↔ (sym s 0 ≠ sym t 0) from ne_comm]
  | succ n ih =>
    intro i j hij
    match i, j with
    | 0, 0 =>
      rw [dlCell_zero_zero, dlCell_zero_zero]
      simp only [show ((sym t 0 ≠ sym s 0)) ↔ (sym s 0 ≠ sym t 0) from ne_comm]
    | k+1, 0 =>
      rw [dlCell_succ_zero, dlCell_zero_succ, ← ih k 0 (by omega), h]
      simp only [show ((sym t 0 = sym s (k+1))) ↔ (sym s (k+1) = sym t 0) from eq_comm]
      rw [min_comm (((k:ℚ) + 2) * c.del + c.del) ((dlCell c s t k 0 : ℚ) + c.del)]
    | 0, k+1 =>
      rw [dlCell_zero_succ, dlCell_succ_zero, ← ih 0 k (by omega), h]
      simp only [show ((sym t (k+1) = sym s 0)) ↔ (sym s 0 = sym t (k+1)) from eq_comm]
      rw [min_comm (((k:ℚ) + 2) * c.del + c.del) ((dlCell c s t 0 k : ℚ) + c.del)]
    | i+1, j+1 =>
      rw [dlCell_succ_succ, dlCell_succ_succ]
      rcases h1sw : lastIdxUnder s (sym t (j+1)) (i+1) with _ | iswap <;>
        rcases h2sw : lastIdxUnder t (sym s (i+1)) (j+1) with _ | jswap <;>
        simp only [h1sw, h2sw] <;>
        rw [← ih i (j+1) (by omega), ← ih (i+1) j (by omega), ← ih i j (by omega), h] <;>
        simp only [show ((sym t (j+1) ≠ sym s (i+1))) ↔ (sym s (i+1) ≠ sym t (j+1)) from
          ne_comm] <;>
        rw [min_comm ((dlCell c s t (i+1) j : ℚ) + c.del)
          ((dlCell c s t i (j+1) : ℚ) + c.del)]
      rw [← ih (min (iswap - 1) i) (min (jswap - 1) j) (by omega)]
      have hand : (jswap = 0 ∧ iswap = 0) = (iswap = 0 ∧ jswap = 0) := by
        apply propext
        exact and_comm
      simp only [hand]
      congr 1
      congr 1
      ring

/-- `DamerauLevenshtein.dist_abs` is symmetric whenever `ins_cost == del_cost`
(the cost-model validation is symmetric as well, so the two sides fail
together). -/
theorem dlDistAbsSwap (c : Cost) (s t : List α)
    (h : c.ins = c.del) :
    DamerauLevenshtein.dist_abs c s t = DamerauLevenshtein.dist_abs c t s := by
  unfold DamerauLevenshtein.dist_abs
  by_cases hst : s = t
  · rw [if_pos hst, if_pos hst.symm]
  · have hts : ¬ t = s := fun e => hst e.symm
    rw [if_neg hst, if_neg hts]
    by_cases hs : s = []
    · have ht : ¬ t = [] := fun he => hst (by rw [hs, he])
      rw [if_pos hs, if_neg ht, if_pos hs, h]
    · by_cases ht : t = []
      · rw [if_neg hs, if_pos ht, if_pos ht, h]
      · rw [if_neg hs, if_neg ht, if_neg ht, if_neg hs]
        by_cases hv : 2 * c.trans < c.ins + c.del
        · rw [if_pos hv, if_pos hv]
        · rw [if_neg hv, if_neg hv]
          exact congrArg (fun z : ℤ => (Except.ok (z : ℚ) : Except String ℚ))
            (dlCell_swap c s t h (s.length + t.length) (s.length - 1) (t.length - 1)
              (by omega))

/-! ## The backtrace walk -/

theorem pedWalk_zero_zero (cell : ℕ → ℕ → ℚ) (s t : List α)
    (accS accT : List (Option α)) :
    pedWalk cell s t 0 0 accS accT = (accS, accT) := by
  simp only [pedWalk]

theorem pedWalk_zero_succ (cell : ℕ → ℕ → ℚ) (s t : List α) (j : ℕ)
    (accS accT : List (Option α)) :
    pedWalk cell s t 0 (j+1) accS accT =
      pedWalk cell s t 0 j (none :: accS) (some (sym t j) :: accT) := by
  simp only [pedWalk]

theorem pedWalk_succ_zero (cell : ℕ → ℕ → ℚ) (s t : List α) (i : ℕ)
    (accS accT : List (Option α)) :
    pedWalk cell s t (i+1) 0 accS accT =
      pedWalk cell s t i 0 (some (sym s i) :: accS) (none :: accT) := by
  simp only [pedWalk]

theorem pedWalk_succ_succ (cell : ℕ → ℕ → ℚ) (s t : List α) (i j : ℕ)
    (accS accT : List (Option α)) :
    pedWalk cell s t (i+1) (j+1) accS accT =
      (if cell i j ≤ min (cell (i+1) j) (cell i (j+1)) then
        pedWalk cell s t i j (some (sym s i) :: accS) (some (sym t j) :: accT)
      else if cell (i+1) j ≤ cell i (j+1) then
        pedWalk cell s t (i+1) j (none :: accS) (some (sym t j) :: accT)
      else
        pedWalk cell s t i (j+1) (some (sym s i) :: accS) (none :: accT)) := by
  simp only [pedWalk]

/-- Each step of the backtrace emits exactly one entry on each side, so the
two aligned sequences always come out the same length. -/
theorem pedWalk_length (cell : ℕ → ℕ → ℚ) (s t : List α) :
    ∀ N i j (accS accT : List (Option α)), i + j ≤ N →
      accS.length = accT.length →
      ((pedWalk cell s t i j accS accT).1).length
        = ((pedWalk cell s t i j accS accT).2).length := by
  intro N
  induction N with
  | zero =>
    intro i j accS accT hij hlen
    obtain ⟨rfl, rfl⟩ : i = 0 ∧ j = 0 := by omega
    rw [pedWalk_zero_zero]
    exact hlen
  | succ n ih =>
    intro i j accS accT hij hlen
    match i, j with
    | 0, 0 =>
      rw [pedWalk_zero_zero]
      exact hlen
    | 0, j+1 =>
      rw [pedWalk_zero_succ]
      exact ih 0 j _ _ (by omega) (by simp [hlen])
    | i+1, 0 =>
      rw [pedWalk_succ_zero]
      exact ih i 0 _ _ (by omega) (by simp [hlen])
    | i+1, j+1 =>
      rw [pedWalk_succ_succ]
      split
      · exact ih i j _ _ (by omega) (by simp [hlen])
      · split
        · exact ih (i+1) j _ _ (by omega) (by simp [hlen])
        · exact ih i (j+1) _ _ (by omega) (by simp [hlen])

/-- What `PhoneticEditDistance.alignment` guarantees whenever it returns: the
two aligned sequences have equal length and the reported distance is exactly
the terminal cell of the alignment matrix. -/
theorem alignment_spec (g : Agreement α) (c : Cost) (m : Mode) (s t : List α)
    (d : ℚ) (sa ta : List (Option α))
    (h : PhoneticEditDistance.alignment g c m s t = some (d, sa, ta)) :
    sa.length = ta.length ∧ pedCell g c m s t s.length t.length = some d := by
  unfold PhoneticEditDistance.alignment at h
  rcases hc : pedCell g c m s t s.length t.length with _ | v
  · rw [hc] at h
    simp at h
  · rw [hc] at h
    simp only [Option.map_some] at h
    injection h with h
    have hd : v = d := congrArg (fun p => p.1) h
    have h1 : (pedWalk (fun i j => (pedCell g c m s t i j).getD 0) s t
        s.length t.length [] []).1 = sa := congrArg (fun p => p.2.1) h
    have h2 : (pedWalk (fun i j => (pedCell g c m s t i j).getD 0) s t
        s.length t.length [] []).2 = ta := congrArg (fun p => p.2.2) h
    constructor
    · rw [← h1, ← h2]
      exact pedWalk_length _ s t (s.length + t.length) s.length t.length [] [] le_rfl rfl
    · exact congrArg some hd

/-! ## `dist_abs`-level bounds -/

theorem Levenshtein.dist_abs_nonneg (c : Cost) (m : Mode) (s t : List α)
    (h1 : 0 ≤ c.ins) (h2 : 0 ≤ c.del) (h3 : 0 ≤ c.sub) (h4 : 0 ≤ c.trans) :
    0 ≤ Levenshtein.dist_abs c m s t := by
  unfold Levenshtein.dist_abs
  by_cases hst : s = t
  · rw [if_pos hst]
  · rw [if_neg hst]
    by_cases hs : s = []
    · rw [if_pos hs]
      positivity
    · rw [if_neg hs]
      by_cases ht : t = []
      · rw [if_pos ht]
        positivity
      · rw [if_neg ht]
        exact levCell_nonneg c m s t h1 h2 h3 h4 _ _

theorem Levenshtein.dist_abs_le_max (c : Cost) (m : Mode) (s t : List α)
    (hi : c.ins = 1) (hd : c.del = 1) (h3 : 0 ≤ c.sub) (hs1 : c.sub ≤ 1)
    (h4 : 0 ≤ c.trans) :
    Levenshtein.dist_abs c m s t ≤ max (s.length : ℚ) (t.length : ℚ) := by
  unfold Levenshtein.dist_abs
  by_cases hst : s = t
  · rw [if_pos hst]
    positivity
  · rw [if_neg hst]
    by_cases hs : s = []
    · rw [if_pos hs, hi, mul_one]
      exact le_max_right _ _
    · rw [if_neg hs]
      by_cases ht : t = []
      · rw [if_pos ht, hd, mul_one]
        exact le_max_left _ _
      · rw [if_neg ht]
        exact levCell_le_max c m s t hi hd h3 hs1 h4 (s.length + t.length) _ _ le_rfl

theorem Levenshtein.dist_abs_le_linear (c : Cost) (m : Mode) (s t : List α)
    (hi : c.ins = 1) (hd : c.del = 1) (h3 : 0 ≤ c.sub) (h4 : 0 ≤ c.trans) :
    Levenshtein.dist_abs c m s t ≤ (s.length : ℚ) + (t.length : ℚ) := by
  unfold Levenshtein.dist_abs
  by_cases hst : s = t
  · rw [if_pos hst]
    positivity
  · rw [if_neg hst]
    by_cases hs : s = []
    · rw [if_pos hs, hi, mul_one]
      have : (0:ℚ) ≤ (s.length : ℚ) := by positivity
      linarith
    · rw [if_neg hs]
      by_cases ht : t = []
      · rw [if_pos ht, hd, mul_one]
        have : (0:ℚ) ≤ (t.length : ℚ) := by positivity
        linarith
      · rw [if_neg ht]
        exact levCell_le_linear c m s t hi hd h3 h4 (s.length + t.length) _ _ le_rfl

theorem div_unit_bounds {A M : ℚ} (hA0 : 0 ≤ A) (hAM : A ≤ M) (hM : 0 < M) :
    0 ≤ A / M ∧ A / M ≤ 1 :=
  ⟨div_nonneg hA0 (le_of_lt hM), (div_le_one hM).mpr hAM⟩

/-! ## The claims -/

/-- C1: with unit costs `(1,1,1,1)` the raw edit distance between "ATCG"
(`[0,1,2,3]`) and "TAGC" (`[1,0,3,2]`) is `3` in `lev` mode, `2` in `osa`
mode, and `2` for the Damerau-Levenshtein distance; and the
Damerau-Levenshtein distance between "cat" (`[0,1,2]`) and "hat"
(`[3,1,2]`) is `1`. -/
theorem claim_c1 :
    Levenshtein.dist_abs unitCost Mode.lev ([0,1,2,3] : List ℕ) [1,0,3,2] = 3 ∧
    Levenshtein.dist_abs unitCost Mode.osa ([0,1,2,3] : List ℕ) [1,0,3,2] = 2 ∧
    DamerauLevenshtein.dist_abs unitCost ([0,1,2,3] : List ℕ) [1,0,3,2] = .ok 2 ∧
    DamerauLevenshtein.dist_abs unitCost ([0,1,2] : List ℕ) [3,1,2] = .ok 1 := by
  refine ⟨?_, ?_, ?_, ?_⟩
  · norm_num [Levenshtein.dist_abs, unitCost, levATCG_lev_val, List.cons_ne_nil]
  · norm_num [Levenshtein.dist_abs, unitCost, levATCG_osa_val, List.cons_ne_nil]
  · norm_num [DamerauLevenshtein.dist_abs, unitCost, dlATCG_val, List.cons_ne_nil]
  · norm_num [DamerauLevenshtein.dist_abs, unitCost, dlCat_val, List.cons_ne_nil]

/-- C2, counterexample to the claim as stated: with the invalid cost model
`(1, 1, 1, 0.1)` (indeed `2×0.1 < 1+1`), requesting the Damerau-Levenshtein
distance of the EQUAL pair `("a", "a")` does not fail — the `src == tar`
fast path returns `0` before the validation runs. -/
theorem claim_c2_counterexample :
    2 * ((1:ℚ)/10) < 1 + 1 ∧
    DamerauLevenshtein.dist_abs ⟨1, 1, 1, 1/10⟩ ([0] : List ℕ) [0] = .ok 0 := by
  constructor
  · norm_num
  · norm_num [DamerauLevenshtein.dist_abs]

/-- C2, amended: for every cost model with `2 × transpose < insert + delete`,
requesting the Damerau-Levenshtein distance of any pair of DISTINCT NON-EMPTY
strings fails with the `InvalidCostModel` error, and the validation precedes
all matrix work (the result is the error value, never a partial matrix); on
equal strings or when either string is empty the fast paths return a result
without validating. -/
theorem claim_c2 (c : Cost) (s t : List α) (hv : 2 * c.trans < c.ins + c.del)
    (hst : s ≠ t) (hs : s ≠ []) (ht : t ≠ []) :
    DamerauLevenshtein.dist_abs c s t = .error dlCostError := by
  unfold DamerauLevenshtein.dist_abs
  rw [if_neg hst, if_neg hs, if_neg ht, if_pos hv]

theorem claim_c2_witness :
    DamerauLevenshtein.dist_abs ⟨1, 1, 1, 1/10⟩ ([0] : List ℕ) [1] = .error dlCostError :=
  claim_c2 ⟨1, 1, 1, 1/10⟩ [0] [1] (by norm_num) (by decide) (by decide) (by decide)

/-- C3: the substitution candidate of the phonetic matrix does NOT compute
its graded cost from the pair `(src[i-1], tar[j-1])`: on
`src = [0,1,3]`, `tar = [2,3,4]` with costs `(1,1,10,1)` and the agreement
function `gC3`, the code (which reads `tar[i]` instead of `tar[j]`) returns
`2`, while the spec's recurrence (reading `tar[j-1]`) yields `4`. -/
theorem claim_c3 :
    PhoneticEditDistance.dist_abs gC3 ⟨1, 1, 10, 1⟩ Mode.lev ([0,1,3] : List ℕ) [2,3,4]
      = some 2 ∧
    pedCellSpec gC3 ⟨1, 1, 10, 1⟩ Mode.lev ([0,1,3] : List ℕ) [2,3,4] 3 3 = 4 ∧
    (2 : ℚ) ≠ 4 := by
  refine ⟨?_, pedC3spec_val, by norm_num⟩
  norm_num [PhoneticEditDistance.dist_abs, pedC3_val, List.cons_ne_nil]

/-- C4: the phonetic edit distance is NOT total: on `src = [0,1]`,
`tar = [0]` (source one symbol longer than the target, with differing
symbols) the substitution candidate of cell `(2,1)` evaluates `tar[1]`,
which is out of range — the computation crashes (`none`) instead of
returning a distance. -/
theorem claim_c4 :
    PhoneticEditDistance.dist_abs gBin unitCost Mode.lev ([0,1] : List ℕ) [0] = none := by
  norm_num [PhoneticEditDistance.dist_abs, unitCost, pedCrash_val, List.cons_ne_nil]

/-- C5: whenever the alignment returns, the two aligned sequences have equal
length and the reported distance is the terminal matrix cell; concretely,
aligning "ATCG" (`[0,1,2,3]`) with "TAGC" (`[1,0,3,2]`) under unit costs in
`lev` mode yields distance `3` and the equal-length pair
`("ATCG-", "-TAGC")` (gap marker `none`), one gap on each side for the one
insertion and one deletion performed. -/
theorem claim_c5 :
    (∀ (g : Agreement α) (c : Cost) (m : Mode) (s t : List α) (d : ℚ)
        (sa ta : List (Option α)),
      PhoneticEditDistance.alignment g c m s t = some (d, sa, ta) →
        sa.length = ta.length ∧ pedCell g c m s t s.length t.length = some d) ∧
    PhoneticEditDistance.alignment gBin unitCost Mode.lev ([0,1,2,3] : List ℕ) [1,0,3,2] =
      some (3, [some 0, some 1, some 2, some 3, none],
               [none, some 1, some 0, some 3, some 2]) := by
  constructor
  · intro g c m s t d sa ta hh
    exact alignment_spec g c m s t d sa ta hh
  · exact pedAlignATCG_val

theorem claim_c5_witness :
    ([some 0, some 1, some 2, some 3, none] : List (Option ℕ)).length =
      ([none, some 1, some 0, some 3, some 2] : List (Option ℕ)).length ∧
    pedCell gBin unitCost Mode.lev ([0,1,2,3] : List ℕ) [1,0,3,2] 4 4 = some 3 :=
  (@claim_c5 ℕ _ _).1 gBin unitCost Mode.lev [0,1,2,3] [1,0,3,2] 3 _ _ (@claim_c5 ℕ _ _).2

/-- C6: every normalized distance equals the raw distance divided by
`reduce([len(src)×delete, len(tar)×insert])` — `reduce` being `max` for
`Levenshtein` and `DamerauLevenshtein`, and the caller-supplied `normalizer`
for `PhoneticEditDistance` — and equal inputs yield exactly `0` without the
reduction being consulted (the last conjunct holds for EVERY normalizer). -/
theorem claim_c6 :
    (∀ (c : Cost) (m : Mode) (s t : List α),
      Levenshtein.dist c m s t =
        if s = t then 0
        else Levenshtein.dist_abs c m s t /
          max ((s.length : ℚ) * c.del) ((t.length : ℚ) * c.ins)) ∧
    (∀ (c : Cost) (s t : List α),
      DamerauLevenshtein.dist c s t =
        if s = t then .ok 0
        else (DamerauLevenshtein.dist_abs c s t).map
          (fun d => d / max ((s.length : ℚ) * c.del) ((t.length : ℚ) * c.ins))) ∧
    (∀ (g : Agreement α) (c : Cost) (m : Mode) (normalizer : List ℚ → ℚ) (s t : List α),
      PhoneticEditDistance.dist g c m normalizer s t =
        if s = t then some 0
        else (PhoneticEditDistance.dist_abs g c m s t).map
          (fun d => d / normalizer [(s.length : ℚ) * c.del, (t.length : ℚ) * c.ins])) ∧
    (∀ (g : Agreement α) (c : Cost) (m : Mode) (normalizer : List ℚ → ℚ) (s : List α),
      PhoneticEditDistance.dist g c m normalizer s s = some 0) := by
  refine ⟨fun _ _ _ _ => rfl, fun _ _ _ => rfl, fun _ _ _ _ _ _ => rfl, ?_⟩
  intro g c m normalizer s
  unfold PhoneticEditDistance.dist
  rw [if_pos rfl]

/-- C7: under unit costs the normalized distance lies in `[0, 1]` for every
pair of strings, in `lev` and `osa` modes and for Damerau-Levenshtein (whose
unit cost model passes validation, so the result is always `ok`). -/
theorem claim_c7 (m : Mode) (s t : List α) :
    (0 ≤ Levenshtein.dist unitCost m s t ∧ Levenshtein.dist unitCost m s t ≤ 1) ∧
    ∃ q : ℚ, DamerauLevenshtein.dist unitCost s t = .ok q ∧ 0 ≤ q ∧ q ≤ 1 := by
  have hMeq : max ((s.length : ℚ) * unitCost.del) ((t.length : ℚ) * unitCost.ins)
      = max (s.length : ℚ) (t.length : ℚ) := by
    norm_num [unitCost]
  constructor
  · by_cases hst : s = t
    · unfold Levenshtein.dist
      rw [if_pos hst]
      norm_num
    · have hM : (0:ℚ) < max (s.length : ℚ) (t.length : ℚ) := by
        have hne : s.length ≠ 0 ∨ t.length ≠ 0 := by
          by_contra hb
          push_neg at hb
          exact hst (by rw [List.length_eq_zero.mp hb.1, List.length_eq_zero.mp hb.2])
        rcases hne with hx | hx
        · have h1 : (1:ℚ) ≤ (s.length : ℚ) := by
            exact_mod_cast Nat.one_le_iff_ne_zero.mpr hx
          exact lt_of_lt_of_le (by norm_num) (le_trans h1 (le_max_left _ _))
        · have h1 : (1:ℚ) ≤ (t.length : ℚ) := by
            exact_mod_cast Nat.one_le_iff_ne_zero.mpr hx
          exact lt_of_lt_of_le (by norm_num) (le_trans h1 (le_max_right _ _))
      have hA0 : 0 ≤ Levenshtein.dist_abs unitCost m s t :=
        Levenshtein.dist_abs_nonneg unitCost m s t (by norm_num [unitCost])
          (by norm_num [unitCost]) (by norm_num [unitCost]) (by norm_num [unitCost])
      have hAM : Levenshtein.dist_abs unitCost m s t
          ≤ max (s.length : ℚ) (t.length : ℚ) :=
        Levenshtein.dist_abs_le_max unitCost m s t rfl rfl (by norm_num [unitCost])
          (by norm_num [unitCost]) (by norm_num [unitCost])
      unfold Levenshtein.dist
      rw [if_neg hst, hMeq]
      exact div_unit_bounds hA0 hAM hM
  · by_cases hst : s = t
    · refine ⟨0, ?_, le_refl 0, by norm_num⟩
      unfold DamerauLevenshtein.dist
      rw [if_pos hst]
    · have hM : (0:ℚ) < max (s.length : ℚ) (t.length : ℚ) := by
        have hne : s.length ≠ 0 ∨ t.length ≠ 0 := by
          by_contra hb
          push_neg at hb
          exact hst (by rw [List.length_eq_zero.mp hb.1, List.length_eq_zero.mp hb.2])
        rcases hne with hx | hx
        · have h1 : (1:ℚ) ≤ (s.length : ℚ) := by
            exact_mod_cast Nat.one_le_iff_ne_zero.mpr hx
          exact lt_of_lt_of_le (by norm_num) (le_trans h1 (le_max_left _ _))
        · have h1 : (1:ℚ) ≤ (t.length : ℚ) := by
            exact_mod_cast Nat.one_le_iff_ne_zero.mpr hx
          exact lt_of_lt_of_le (by norm_num) (le_trans h1 (le_max_right _ _))
      have habs : ∃ A, DamerauLevenshtein.dist_abs unitCost s t = .ok A ∧
          0 ≤ A ∧ A ≤ max (s.length : ℚ) (t.length : ℚ) := by
        unfold DamerauLevenshtein.dist_abs
        rw [if_neg hst]
        by_cases hs : s = []
        · rw [if_pos hs]
          refine ⟨(t.length : ℚ) * unitCost.ins, rfl, by norm_num [unitCost], ?_⟩
          rw [show unitCost.ins = 1 from rfl, mul_one]
          exact le_max_right _ _
        · rw [if_neg hs]
          by_cases ht : t = []
          · rw [if_pos ht]
            refine ⟨(s.length : ℚ) * unitCost.del, rfl, by norm_num [unitCost], ?_⟩
            rw [show unitCost.del = 1 from rfl, mul_one]
            exact le_max_left _ _
          · rw [if_neg ht,
              if_neg (show ¬(2 * unitCost.trans < unitCost.ins + unitCost.del) by
                norm_num [unitCost])]
            refine ⟨_, rfl, dlCell_nonneg unitCost s t (by norm_num [unitCost])
              (by norm_num [unitCost]) (by norm_num [unitCost]) (by norm_num [unitCost]) _ _, ?_⟩
            have h1s : 1 ≤ s.length := List.length_pos.mpr hs
            have h1t : 1 ≤ t.length := List.length_pos.mpr ht
            have hbound := dlCell_le_max unitCost s t rfl rfl (by norm_num [unitCost])
              (by norm_num [unitCost]) (by norm_num [unitCost])
              ((s.length - 1) + (t.length - 1)) (s.length - 1) (t.length - 1) le_rfl
            have e1 : ((s.length - 1 : ℕ) : ℚ) = (s.length : ℚ) - 1 := by
              rw [Nat.cast_sub h1s, Nat.cast_one]
            have e2 : ((t.length - 1 : ℕ) : ℚ) = (t.length : ℚ) - 1 := by
              rw [Nat.cast_sub h1t, Nat.cast_one]
            rw [e1, e2, max_sub_sub_right] at hbound
            calc (dlCell unitCost s t (s.length - 1) (t.length - 1) : ℚ)
                ≤ max (s.length : ℚ) (t.length : ℚ) - 1 + 1 := hbound
            _ = max (s.length : ℚ) (t.length : ℚ) := by ring
      obtain ⟨A, hA, hA0, hAM⟩ := habs
      obtain ⟨hb0, hb1⟩ := div_unit_bounds hA0 hAM hM
      refine ⟨A / max (s.length : ℚ) (t.length : ℚ), ?_, hb0, hb1⟩
      unfold DamerauLevenshtein.dist
      rw [if_neg hst, hA]
      simp only [Except.map, hMeq]

/-- C8: with `insert == delete` both raw distances are symmetric in their two
arguments, in `lev` and `osa` modes and for the Damerau-Levenshtein
distance. -/
theorem claim_c8 (c : Cost) (m : Mode) (s t : List α) (h : c.ins = c.del) :
    Levenshtein.dist_abs c m s t = Levenshtein.dist_abs c m t s ∧
    DamerauLevenshtein.dist_abs c s t = DamerauLevenshtein.dist_abs c t s :=
  ⟨levDistAbsSwap c m s t h, dlDistAbsSwap c s t h⟩

theorem claim_c8_witness :
    (Levenshtein.dist_abs unitCost Mode.osa ([0,1] : List ℕ) [1,0] =
      Levenshtein.dist_abs unitCost Mode.osa [1,0] [0,1]) ∧
    (DamerauLevenshtein.dist_abs unitCost ([0,1] : List ℕ) [1,0] =
      DamerauLevenshtein.dist_abs unitCost [1,0] [0,1]) :=
  claim_c8 unitCost Mode.osa [0,1] [1,0] rfl

/-- C9: `Levenshtein.dist_abs` on distinct non-empty strings always returns
an integer, whatever the cost 4-tuple — every matrix cell lives in an
integer-typed matrix, so fractional costs are truncated toward zero cell by
cell rather than accumulated exactly: with all four costs `1/2`, the
distance between `[0,1]` and `[2,3]` comes out `0` (exact accumulation would
give `1`). -/
theorem claim_c9 :
    (∀ (c : Cost) (m : Mode) (s t : List α), s ≠ t → s ≠ [] → t ≠ [] →
      ∃ z : ℤ, Levenshtein.dist_abs c m s t = (z : ℚ)) ∧
    Levenshtein.dist_abs ⟨1/2, 1/2, 1/2, 1/2⟩ Mode.lev ([0,1] : List ℕ) [2,3] = 0 := by
  constructor
  · intro c m s t hst hs ht
    refine ⟨levCell c m s t s.length t.length, ?_⟩
    unfold Levenshtein.dist_abs
    rw [if_neg hst, if_neg hs, if_neg ht]
  · norm_num [Levenshtein.dist_abs, levHalfCost_val, List.cons_ne_nil]

theorem claim_c9_witness :
    (([0,1] : List ℕ) ≠ [2,3]) ∧
    ∃ z : ℤ, Levenshtein.dist_abs (⟨1/2, 1/2, 1/2, 1/2⟩ : Cost) Mode.lev
      ([0,1] : List ℕ) [2,3] = (z : ℚ) :=
  ⟨by decide, claim_c9.1 ⟨1/2, 1/2, 1/2, 1/2⟩ Mode.lev [0,1] [2,3]
    (by decide) (by decide) (by decide)⟩

/-- C10: for distinct strings the normalized Indel distance is the raw
Levenshtein distance in `lev` mode with costs `(1, 1, 9999, 9999)` divided by
the SUM of the two lengths, and it lies in `[0, 1]`. -/
theorem claim_c10 (s t : List α) (hst : s ≠ t) :
    Indel.dist s t =
      Levenshtein.dist_abs ⟨1, 1, 9999, 9999⟩ Mode.lev s t
        / ((s.length : ℚ) + (t.length : ℚ)) ∧
    0 ≤ Indel.dist s t ∧ Indel.dist s t ≤ 1 := by
  have heq : Indel.dist s t =
      Levenshtein.dist_abs ⟨1, 1, 9999, 9999⟩ Mode.lev s t
        / ((s.length : ℚ) + (t.length : ℚ)) := by
    unfold Indel.dist Indel.dist_abs
    rw [if_neg hst]
  have hM : (0:ℚ) < (s.length : ℚ) + (t.length : ℚ) := by
    have : s.length ≠ 0 ∨ t.length ≠ 0 := by
      by_contra hb
      push_neg at hb
      exact hst (by
        rw [List.length_eq_zero.mp hb.1, List.length_eq_zero.mp hb.2])
    rcases this with hls | hlt
    · have h1 : (1:ℚ) ≤ (s.length : ℚ) := by exact_mod_cast Nat.one_le_iff_ne_zero.mpr hls
      have h2 : (0:ℚ) ≤ (t.length : ℚ) := by positivity
      linarith
    · have h1 : (1:ℚ) ≤ (t.length : ℚ) := by exact_mod_cast Nat.one_le_iff_ne_zero.mpr hlt
      have h2 : (0:ℚ) ≤ (s.length : ℚ) := by positivity
      linarith
  have hA0 : 0 ≤ Levenshtein.dist_abs ⟨1, 1, 9999, 9999⟩ Mode.lev s t :=
    Levenshtein.dist_abs_nonneg _ _ s t (by norm_num) (by norm_num) (by norm_num) (by norm_num)
  have hAM : Levenshtein.dist_abs ⟨1, 1, 9999, 9999⟩ Mode.lev s t
      ≤ (s.length : ℚ) + (t.length : ℚ) :=
    Levenshtein.dist_abs_le_linear _ _ s t rfl rfl (by norm_num) (by norm_num)
  obtain ⟨hb0, hb1⟩ := div_unit_bounds hA0 hAM hM
  rw [heq]
  exact ⟨rfl, hb0, hb1⟩

theorem claim_c10_witness :
    (Indel.dist ([0] : List ℕ) [] =
      Levenshtein.dist_abs ⟨1, 1, 9999, 9999⟩ Mode.lev ([0] : List ℕ) []
        / ((([0] : List ℕ).length : ℚ) + (([] : List ℕ).length : ℚ))) ∧
    0 ≤ Indel.dist ([0] : List ℕ) [] ∧ Indel.dist ([0] : List ℕ) [] ≤ 1 :=
  claim_c10 [0] [] (by decide)

end Abydos
